import Mathlib

/-!
Verification of the NEPA schema reconciliation utilities of this repository:
the field-mapping tables and enumerated-value translators
(`scripts/utils/mapping-utils.js`), the entity transformer
(`transformProperties`, `transformEntity`, `transformToNepaFormat`), and the
database-crosswalk coverage analyzer (`validateTableAgainstSchema`,
`validateTable`).

The JavaScript code is embedded shallowly:

* JSON documents become the inductive type `Json`; JavaScript objects are
  association lists in property-insertion order, which is the order `for..in`
  visits string keys of a parsed JSON document (such documents have unique,
  non-integer-like keys, so insertion order is the enumeration order).
* Member access `o[k]` on an object is `assocFind`/`jsGet` (an absent key is
  `undefined`, modelled as `none`); assignment is `objSet`/`jsSet` (overwrite
  in place, append for a new key); `delete` is `objDelete`/`jsDelete`.
  Property assignment on a non-object silently no-ops (non-strict mode);
  prototype-inherited properties (`toString` etc.) are not modelled.
* JavaScript truthiness is `truthy`; string coercion of property keys and of
  template-literal interpolations is `jsToStr` (numbers are modelled as
  integers, which is exact for the identifier coercions the scripts perform).
* Functions that can raise a `TypeError` (calling `.toLowerCase`/`.push` on a
  value that lacks it) return `Except String`.
-/

inductive Json where
  | null
  | bool (b : Bool)
  | num (n : Int)
  | str (s : String)
  | arr (elems : List Json)
  | obj (fields : List (String × Json))

/-- Association-list lookup: the value of the first field named `key`, the
model of JavaScript member access `o[key]` (with `none` for `undefined`). -/
def assocFind {α : Type} : List (String × α) → String → Option α
  | [], _ => none
  | (k, v) :: rest, key => if k = key then some v else assocFind rest key

/-- JavaScript truthiness of a JSON value: `null`, `false`, `0` and `""` are
falsy, every object and array (even empty) is truthy. -/
def truthy : Json → Bool
  | .null => false
  | .bool b => b
  | .num n => n != 0
  | .str s => s != ""
  | .arr _ => true
  | .obj _ => true

/-- Truthiness of a possibly-`undefined` value (`undefined` is falsy). -/
def truthyO : Option Json → Bool
  | some v => truthy v
  | none => false

def Json.isNull : Json → Bool
  | .null => true
  | _ => false

/-- Member read on an arbitrary value: objects look the key up, everything
else yields `undefined` (the scripts never read named keys off primitives). -/
def jsGet : Json → String → Option Json
  | .obj ms, k => assocFind ms k
  | _, _ => none

/-- Assignment `o[key] = v`: overwrite the first field with that key in place,
or append a new field; on a non-object the assignment is silently dropped
(non-strict mode). -/
def objSet : List (String × Json) → String → Json → List (String × Json)
  | [], key, v => [(key, v)]
  | (k, w) :: rest, key, v =>
    if k = key then (k, v) :: rest else (k, w) :: objSet rest key v

def jsSet : Json → String → Json → Json
  | .obj ms, k, v => .obj (objSet ms k v)
  | x, _, _ => x

/-- `delete o[key]`: remove the field (fields, for the degenerate duplicated
case the source language cannot produce). -/
def objDelete : List (String × Json) → String → List (String × Json)
  | [], _ => []
  | (k, w) :: rest, key =>
    if k = key then objDelete rest key else (k, w) :: objDelete rest key

def jsDelete : Json → String → Json
  | .obj ms, k => .obj (objDelete ms k)
  | x, _ => x

/-- The fields of a value when it is an object, else none (`Object.keys` of a
primitive enumerates nothing relevant here). -/
def jsObjFields : Json → List (String × Json)
  | .obj ms => ms
  | _ => []

mutual
/-- JavaScript `String(v)` / template-literal coercion: arrays join their
elements with commas (`null` joining as the empty string), plain objects
print as `[object Object]`. -/
def jsToStr : Json → String
  | .null => "null"
  | .bool true => "true"
  | .bool false => "false"
  | .num n => n.repr
  | .str s => s
  | .arr es => jsArrStr es
  | .obj _ => "[object Object]"
def jsArrStr : List Json → String
  | [] => ""
  | [Json.null] => ""
  | [e] => jsToStr e
  | Json.null :: rest => "," ++ jsArrStr rest
  | e :: rest => jsToStr e ++ "," ++ jsArrStr rest
end

/-- `String.prototype.toLowerCase` (the ASCII range, which covers every
status value the scripts translate). -/
def jsToLower (s : String) : String := String.mk (s.data.map Char.toLower)

/-- `s.startsWith(p)`. -/
def strStartsWith (s p : String) : Bool := p.data.isPrefixOf s.data

/-- `s.endsWith(p)`. -/
def strEndsWith (s p : String) : Bool := p.data.isSuffixOf s.data

def occursIn : List Char → List Char → Bool
  | [], p => p.isEmpty
  | c :: rest, p => p.isPrefixOf (c :: rest) || occursIn rest p

/-- `s.includes(p)`. -/
def strIncludes (s p : String) : Bool := occursIn s.data p.data

/-- `s.slice(0, -1)`: the string with its final character removed. -/
def strDropLast (s : String) : String := String.mk s.data.dropLast

/-- The single-quote character `'` used inside the fix-log messages. -/
def sqc : String := String.singleton (Char.ofNat 39)

mutual
/-- `JSON.parse(JSON.stringify(data))`: a deep structural copy (the scripts
only feed it parsed JSON, so no `undefined`/function pruning arises). -/
def deepClone : Json → Json
  | .null => .null
  | .bool b => .bool b
  | .num n => .num n
  | .str s => .str s
  | .arr es => .arr (deepCloneArr es)
  | .obj ms => .obj (deepCloneObj ms)
def deepCloneArr : List Json → List Json
  | [] => []
  | e :: es => deepClone e :: deepCloneArr es
def deepCloneObj : List (String × Json) → List (String × Json)
  | [] => []
  | (k, v) :: ms => (k, deepClone v) :: deepCloneObj ms
end


/-! ## `scripts/utils/mapping-utils.js` -/

/-- `shouldIgnoreField` [mapping-utils.js:60]: system/metadata fields, a small
list of parent-relationship fields, `_`-prefixed or `_json`-containing names,
and `parent_*_id` fields outside the important allow-list are ignored. -/
def shouldIgnoreField (fieldName : String) : Bool :=
  let systemFields := ["created_at", "updated_at", "_id", "other", "notes"]
  let ignoredParentFields :=
    ["parent_comment_id", "parent_event_id", "parent_engagement_id",
     "parent_case_event_id"]
  if systemFields.contains fieldName || ignoredParentFields.contains fieldName then
    true
  else if strStartsWith fieldName "_" || strIncludes fieldName "_json" then
    true
  else if strEndsWith fieldName "_id" && strStartsWith fieldName "parent_" then
    let importantParentFields :=
      ["parent_project_id", "parent_process_id", "parent_document_id"]
    !importantParentFields.contains fieldName
  else
    false

structure SchemaMapping where
  schemaName : String
  idField : String
deriving DecidableEq

/-- `TABLE_TO_SCHEMA_MAP` [mapping-utils.js:22]. -/
def TABLE_TO_SCHEMA_MAP : List (String × SchemaMapping) :=
  [("project", ⟨"project", "project_id"⟩),
   ("process_instance", ⟨"process", "process_id"⟩),
   ("document", ⟨"document", "document_id"⟩),
   ("comment", ⟨"public_comment", "comment_id"⟩),
   ("engagement", ⟨"public_engagement_event", "event_id"⟩),
   ("case_event", ⟨"case_event", "case_event_id"⟩),
   ("gis_data", ⟨"gis_data", "gis_id"⟩),
   ("gis_data_element", ⟨"gis_data_element", "gis_element_id"⟩),
   ("user_role", ⟨"user_role", "role_id"⟩),
   ("legal_structure", ⟨"legal_structure", "legal_structure_id"⟩),
   ("decision_element", ⟨"decision_element", "decision_element_id"⟩),
   ("process_model", ⟨"process_model", "process_model_id"⟩),
   ("process_decision_payload", ⟨"decision_payload", "decision_payload_id"⟩)]

/-- `getSchemaMapping` [mapping-utils.js:143]: the table's entry, or the
fallback `{schemaName: tableName, idField: tableName + "_id"}`. -/
def getSchemaMapping (tableName : String) : SchemaMapping :=
  match assocFind TABLE_TO_SCHEMA_MAP tableName with
  | some m => m
  | none => ⟨tableName, tableName ++ "_id"⟩

/-- `mapEntityId` [mapping-utils.js:301]. -/
def mapEntityId (tableName : String) : String :=
  (getSchemaMapping tableName).idField

/-- The per-table rename dictionaries of `mapDatabaseFieldToSchema`
[mapping-utils.js:163]. -/
def fieldMappingsByTable : List (String × List (String × String)) :=
  [("project",
    [("id", "project_id"), ("title", "project_title"),
     ("description", "project_description"), ("sector", "project_sector"),
     ("sponsor", "project_sponsor"), ("type", "project_type"),
     ("funding", "funding_source")]),
   ("document",
    [("id", "document_id"), ("revision_no", "revision_number"),
     ("supplement_no", "supplement_number"), ("public_access", "public_access"),
     ("parent_process_id", "process_id")]),
   ("process_instance",
    [("id", "process_id"), ("parent_project_id", "project_id"),
     ("comment_start", "comment_period_start"),
     ("comment_end", "comment_period_end"),
     ("process_model", "process_model_id"), ("federal_id", "federal_unique_id"),
     ("description", "description"), ("type", "process_type"),
     ("status", "process_status"), ("stage", "process_stage"),
     ("complete_date", "completion_date"), ("outcome", "process_outcome")]),
   ("gis_data",
    [("id", "gis_id"), ("centroid_lat", "centroid_latitude"),
     ("centroid_lon", "centroid_longitude"),
     ("creator_contact", "creator_contact_info"),
     ("map_image", "map_image_url"), ("data_container", "container_inventory"),
     ("address", "location_address"), ("updated_last", "last_updated"),
     ("creator", "creator"), ("description", "description"),
     ("extent", "extent"), ("notes", "notes")]),
   ("comment",
    [("id", "comment_id"), ("parent_document_id", "related_document_id"),
     ("commenter_entity", "commenter_name"), ("content_text", "content"),
     ("submission_method", "method_of_submission"),
     ("public_acess", "public_access"), ("response_text", "agency_response")]),
   ("case_event",
    [("id", "case_event_id"), ("name", "event_name"), ("type", "event_type"),
     ("datetime", "event_date"), ("parent_process_id", "process_id")]),
   ("engagement",
    [("id", "event_id"), ("parent_process_id", "related_process_id"),
     ("participation", "participation_method"), ("start_datetime", "date"),
     ("related_document_id", "related_document_id")]),
   ("decision_element",
    [("id", "decision_element_id"), ("process_model", "process_model_id"),
     ("title", "element_title"), ("description", "element_description"),
     ("threshold", "threshold"), ("spatial", "spatial"),
     ("category", "category")]),
   ("process_decision_payload",
    [("id", "decision_payload_id"), ("process", "process_id"),
     ("project", "project_id"),
     ("process_decision_element", "decision_element_id"),
     ("evaluation_data", "payload_data"), ("created_at", "created_date")]),
   ("process_model",
    [("id", "process_model_id"), ("title", "name")]),
   ("gis_data_element",
    [("id", "gis_element_id"), ("parent_gis", "gis_id"),
     ("format", "data_type"), ("container_reference", "container_reference"),
     ("access_method", "access_method"),
     ("coordinate_system", "coordinate_system"),
     ("top_left_lat", "top_left_lat"), ("top_left_lon", "top_left_lon"),
     ("bot_right_lat", "bot_right_lat"), ("bot_right_lon", "bot_right_lon"),
     ("purpose", "purpose"), ("data_match", "data_match"),
     ("access_info", "access_info")]),
   ("legal_structure", [("id", "legal_structure_id")]),
   ("user_role", [("id", "role_id")])]

/-- The global fallback renames of `mapDatabaseFieldToSchema`
[mapping-utils.js:281]. -/
def specialMappings : List (String × String) :=
  [("sponsor", "project_sponsor"), ("location_text", "location"),
   ("location_object", "location"), ("content_text", "content"),
   ("response_text", "agency_response"), ("commenter_entity", "commenter_name"),
   ("submission_method", "method_of_submission"),
   ("public_acess", "public_access"), ("related_process_id", "process_id")]

/-- `mapDatabaseFieldToSchema` [mapping-utils.js:156]: `id` resolves to the
table's canonical identifier; otherwise the table-specific map, then the
global map, then the identity. -/
def mapDatabaseFieldToSchema (fieldName tableName : String) : String :=
  if fieldName = "id" then mapEntityId tableName
  else
    match assocFind fieldMappingsByTable tableName with
    | some tableMap =>
      match assocFind tableMap fieldName with
      | some v => v
      | none => (assocFind specialMappings fieldName).getD fieldName
    | none => (assocFind specialMappings fieldName).getD fieldName

/-- The status translation table of `mapStatus` [mapping-utils.js:310]. -/
def statusMap : List (String × String) :=
  [("Pre-application", "pre-application"), ("Complete", "completed"),
   ("Completed", "completed"), ("In Progress", "in-progress"),
   ("Pending", "pending"), ("Active", "underway"), ("Cancelled", "cancelled")]

/-- `mapStatus` [mapping-utils.js:309]: `statusMap[status] ||
status?.toLowerCase() || 'underway'`.  An unknown non-string, non-null status
raises a `TypeError` when `.toLowerCase` is called on it. -/
def mapStatus (status : Json) : Except String Json :=
  match assocFind statusMap (jsToStr status) with
  | some v => .ok (.str v)
  | none =>
    match status with
    | .null => .ok (.str "underway")
    | .str s => .ok (.str (if jsToLower s = "" then "underway" else jsToLower s))
    | _ => .error "TypeError: status.toLowerCase is not a function"

/-- The document-type translation table of `mapDocumentType`
[mapping-utils.js:326]. -/
def documentTypeMap : List (String × String) :=
  [("FEIS", "Final EIS"), ("DEIS", "Draft EIS"),
   ("EA", "Environmental Assessment"),
   ("FONSI", "Finding of No Significant Impact"), ("NOI", "Notice of Intent"),
   ("ROD", "Record of Decision")]

/-- `mapDocumentType` [mapping-utils.js:325]: `typeMap[type] || type`. -/
def mapDocumentType (type : Json) : Json :=
  match assocFind documentTypeMap (jsToStr type) with
  | some v => .str v
  | none => type

/-- The engagement-type translation table of `mapEngagementType`
[mapping-utils.js:341]. -/
def engagementTypeMap : List (String × String) :=
  [("public meeting", "public meeting"), ("notice", "notice"),
   ("solicitation", "solicitation"), ("hearing", "public hearing"),
   ("workshop", "workshop"), ("scoping", "scoping meeting")]

/-- `mapEngagementType` [mapping-utils.js:340]:
`typeMap[type] || 'public meeting'`. -/
def mapEngagementType (type : Json) : Json :=
  match assocFind engagementTypeMap (jsToStr type) with
  | some v => .str v
  | none => .str "public meeting"

/-- The event-status translation table of `mapEventStatus`
[mapping-utils.js:356]. -/
def eventStatusMap : List (String × String) :=
  [("Completed", "completed"), ("Complete", "completed"),
   ("In Progress", "in-progress"), ("Pending", "pending"),
   ("Cancelled", "cancelled"), ("Scheduled", "scheduled")]

/-- `mapEventStatus` [mapping-utils.js:355]: `statusMap[status] ||
status?.toLowerCase() || 'pending'`. -/
def mapEventStatus (status : Json) : Except String Json :=
  match assocFind eventStatusMap (jsToStr status) with
  | some v => .ok (.str v)
  | none =>
    match status with
    | .null => .ok (.str "pending")
    | .str s => .ok (.str (if jsToLower s = "" then "pending" else jsToLower s))
    | _ => .error "TypeError: status.toLowerCase is not a function"

/-! ## The data transformation utilities (`transformProperties`,
`transformEntity`, `transformToNepaFormat`) -/

/-- `getDefaultValueForType`: the type-appropriate default for a schema type
tag; the `switch` compares with `===`, so any non-string tag (including the
nested object-shaped schema fragments) falls to `null`. -/
def getDefaultValueForType : Json → Json
  | .str "string" => .str ""
  | .str "integer" => .num 0
  | .str "number" => .num 0
  | .str "boolean" => .bool false
  | .str "object" => .obj []
  | .str "array" => .arr []
  | _ => .null

/-- The fix message `Replaced null with default '<dv>' for <t>.<k>
(expected <et>)` pushed by `transformProperties`. -/
def replacedNullFix (t k : String) (dv et : Json) : String :=
  "Replaced null with default " ++ sqc ++ jsToStr dv ++ sqc ++ " for " ++ t ++
    "." ++ k ++ " (expected " ++ jsToStr et ++ ")"

/-- The null-to-default step of `transformProperties` for one field whose
value is `null`, followed by the `container_inventory` special case and the
nested-value dispatch on the replaced value.  Since `value === null` here,
`entity[key] !== defaultValue` is exactly `defaultValue !== null`; and the
recursive call on a freshly created `{}` default returns it unchanged with no
fixes, so it is inlined as its value. -/
def tpNullEntry (k : String) (expectedType : Option Json) (t : String) :
    (String × Json) × List String :=
  match expectedType with
  | some et =>
    if truthy et then
      let dv := getDefaultValueForType et
      if !dv.isNull || strEndsWith k "_id" then
        if !dv.isNull then
          match dv with
          | .arr es =>
            if t = "gis_data" && k = "container_inventory" then
              match es with
              | [] => ((k, .obj []),
                  [replacedNullFix t k dv et,
                   "Set empty container_inventory to object for " ++ t])
              | e :: _ => ((k, e),
                  [replacedNullFix t k dv et,
                   "Fixed container_inventory structure to object for " ++ t])
            else ((k, .arr es), [replacedNullFix t k dv et])
          | .obj o => ((k, .obj o), [replacedNullFix t k dv et])
          | w => ((k, w), [replacedNullFix t k dv et])
        else ((k, .null), [])
      else ((k, .null), [])
    else ((k, .null), [])
  | none => ((k, .null), [])

/-- `schemaProperties[key] && schemaProperties[key].properties ?
schemaProperties[key].properties : {}`. -/
def nestedPropsOf (sp : List (String × Json)) (k : String) :
    List (String × Json) :=
  match assocFind sp k with
  | some sv =>
    if truthy sv then
      match jsGet sv "properties" with
      | some p => if truthy p then jsObjFields p else []
      | none => []
    else []
  | none => []

mutual
/-- `transformProperties(entity, entityType, fixes, schemaProperties)`: a
non-object (or `null`) input is returned unchanged; an object is rebuilt
field by field (null-to-default with a logged fix, the `gis_data`
`container_inventory` collapsing heuristic, recursion into nested non-array
objects, arrays passed through); `for..in` over an array input enumerates its
index keys, so an array input is rebuilt as an object keyed by indices.
The mutated `fixes` argument is modelled by returning the pushed messages. -/
def transformProperties (entity : Json) (entityType : String)
    (schemaProperties : List (String × Json)) : Json × List String :=
  match entity with
  | .obj ms =>
    let (ms', fx) := tpFields ms entityType schemaProperties
    (.obj ms', fx)
  | .arr es =>
    let (ms', fx) := tpElems 0 es entityType schemaProperties
    (.obj ms', fx)
  | e => (e, [])
def tpFields (fields : List (String × Json)) (t : String)
    (sp : List (String × Json)) : List (String × Json) × List String :=
  match fields with
  | [] => ([], [])
  | (k, v) :: rest =>
    let (rest', fxs) := tpFields rest t sp
    match v with
    | .null =>
      let (e, f) := tpNullEntry k (assocFind sp k) t
      (e :: rest', f ++ fxs)
    | .obj o =>
      let (v', fxn) :=
        transformProperties (.obj o) (t ++ "." ++ k) (nestedPropsOf sp k)
      ((k, v') :: rest', fxn ++ fxs)
    | .arr es =>
      if t = "gis_data" && k = "container_inventory" then
        match es with
        | [] => ((k, .obj []) :: rest',
            ("Set empty container_inventory to object for " ++ t) :: fxs)
        | e :: _ => ((k, e) :: rest',
            ("Fixed container_inventory structure to object for " ++ t) :: fxs)
      else ((k, .arr es) :: rest', fxs)
    | w => ((k, w) :: rest', fxs)
def tpElems (i : Nat) (elems : List Json) (t : String)
    (sp : List (String × Json)) : List (String × Json) × List String :=
  match elems with
  | [] => ([], [])
  | v :: rest =>
    let (rest', fxs) := tpElems (i + 1) rest t sp
    let k := Nat.repr i
    match v with
    | .null =>
      let (e, f) := tpNullEntry k (assocFind sp k) t
      (e :: rest', f ++ fxs)
    | .obj o =>
      let (v', fxn) :=
        transformProperties (.obj o) (t ++ "." ++ k) (nestedPropsOf sp k)
      ((k, v') :: rest', fxn ++ fxs)
    | .arr es =>
      if t = "gis_data" && k = "container_inventory" then
        match es with
        | [] => ((k, .obj []) :: rest',
            ("Set empty container_inventory to object for " ++ t) :: fxs)
        | e :: _ => ((k, e) :: rest',
            ("Fixed container_inventory structure to object for " ++ t) :: fxs)
      else ((k, .arr es) :: rest', fxs)
    | w => ((k, w) :: rest', fxs)
end

/-- The processing `tpFields`/`tpElems` apply to a single field `(k, v)`,
factored out for reasoning (each field is processed independently). -/
def tpEntryOut (k : String) (v : Json) (t : String)
    (sp : List (String × Json)) : (String × Json) × List String :=
  match v with
  | .null => tpNullEntry k (assocFind sp k) t
  | .obj o =>
    let (v', fxn) :=
      transformProperties (.obj o) (t ++ "." ++ k) (nestedPropsOf sp k)
    ((k, v'), fxn)
  | .arr es =>
    if t = "gis_data" && k = "container_inventory" then
      match es with
      | [] => ((k, .obj []),
          ["Set empty container_inventory to object for " ++ t])
      | e :: _ => ((k, e),
          ["Fixed container_inventory structure to object for " ++ t])
    else ((k, .arr es), [])
  | w => ((k, w), [])

/-- `entitySchemaProperties[schemaKey] && entitySchemaProperties[schemaKey].items
&& entitySchemaProperties[schemaKey].items.properties` — the per-item schema
for an array-valued field, when the whole chain is truthy. -/
def itemsPropsOf (esp : List (String × Json)) (k : String) :
    Option (List (String × Json)) :=
  match assocFind esp k with
  | some sv =>
    if truthy sv then
      match jsGet sv "items" with
      | some it =>
        if truthy it then
          match jsGet it "properties" with
          | some p => if truthy p then some (jsObjFields p) else none
          | none => none
        else none
      | none => none
    else none
  | none => none

/-- `for..in` enumeration of an arbitrary value: an object's fields in order,
an array's elements under their index keys, a string's characters under their
index keys, nothing for other primitives. -/
def jsEnumEntries : Json → List (String × Json) :=
  fun j =>
    match j with
    | .obj ms => ms
    | .arr es => enumElems 0 es
    | .str s => enumChars 0 s.data
    | _ => []
where
  enumElems : Nat → List Json → List (String × Json)
    | _, [] => []
    | i, e :: rest => (Nat.repr i, e) :: enumElems (i + 1) rest
  enumChars : Nat → List Char → List (String × Json)
    | _, [] => []
    | i, c :: rest =>
      (Nat.repr i, .str (String.mk [c])) :: enumChars (i + 1) rest

/-- The per-field loop of `transformEntity`: rename via
`mapDatabaseFieldToSchema`, rewrite enumerated values, null-to-default (since
`value === null` implies the original `item[key]` is also `null` — none of
the enum translators returns `null` from a non-null input — the comparison
`item[key] !== defaultValue` is `defaultValue !== null`), coerce numeric
identifiers to strings, recurse into nested objects and arrays-with-item-
schemas, and assign into `transformedItem[schemaKey]` (a later field mapping
to the same schema key overwrites the earlier value in place). -/
def teFields (entries : List (String × Json)) (originalType targetType : String)
    (esp : List (String × Json)) (idField : String)
    (ti : List (String × Json)) (fx : List String) :
    Except String (List (String × Json) × List String) :=
  match entries with
  | [] => .ok (ti, fx)
  | (key, v) :: rest => do
    let schemaKey := mapDatabaseFieldToSchema key originalType
    let value ←
      if schemaKey = "status" || schemaKey = "process_status" ||
          schemaKey = "project_status" then
        mapStatus v
      else if schemaKey = "document_type" then
        .ok (mapDocumentType v)
      else if schemaKey = "event_type" &&
          (targetType = "public_engagement_events" ||
           originalType = "engagement") then
        .ok (mapEngagementType v)
      else if schemaKey = "event_status" &&
          (targetType = "public_engagement_events" ||
           originalType = "engagement") then
        mapEventStatus v
      else
        .ok v
    let expectedType := assocFind esp schemaKey
    let (value, fx1) :=
      match value with
      | .null =>
        if truthyO expectedType then
          let dv := getDefaultValueForType (expectedType.getD .null)
          if !dv.isNull || schemaKey = idField then
            if !dv.isNull then
              (dv,
               ["Replaced null with default " ++ sqc ++ jsToStr dv ++ sqc ++
                " for " ++ originalType ++ "." ++ key ++ " (mapped to " ++
                schemaKey ++ ", expected " ++
                jsToStr ((expectedType.getD .null)) ++ ")"])
            else (.null, [])
          else (.null, [])
        else (.null, [])
      | w => (w, [])
    let (value, fx2) :=
      if strEndsWith schemaKey "_id" then
        match value with
        | .num n =>
          (.str n.repr,
           ["Converted numeric ID " ++ originalType ++ "." ++ key ++
            " (mapped to " ++ schemaKey ++ ") to string: " ++ n.repr ++
            " -> " ++ n.repr])
        | w => (w, [])
      else (value, [])
    let (ti', fx3) :=
      match value with
      | .obj o =>
        let (tv, fxn) :=
          transformProperties (.obj o) (originalType ++ "." ++ schemaKey)
            (nestedPropsOf esp schemaKey)
        (objSet ti schemaKey tv, fxn)
      | .arr es =>
        match itemsPropsOf esp schemaKey with
        | some ip =>
          let rs := es.map (fun ai =>
            transformProperties ai (originalType ++ "." ++ schemaKey ++ "[]") ip)
          (objSet ti schemaKey (.arr (rs.map Prod.fst)),
           (rs.map Prod.snd).flatten)
        | none => (objSet ti schemaKey (.arr es), [])
      | w => (objSet ti schemaKey w, [])
    teFields rest originalType targetType esp idField ti'
      (fx ++ fx1 ++ fx2 ++ fx3)

/-- `entitySchemaProperties.container_inventory.type === 'object'`. -/
def ciTypeIsObject (espCI : Option Json) : Bool :=
  match espCI with
  | some sv =>
    match jsGet sv "type" with
    | some (.str "object") => true
    | _ => false
  | none => false

/-- `typeof v === 'object'` (true for objects, arrays and `null`). -/
def typeofIsObject : Json → Bool
  | .obj _ => true
  | .arr _ => true
  | .null => true
  | _ => false

/-- The GIS-specific repairs at the end of `transformEntity`: synthesize
`gis_id` (timestamp-derived when the schema default is falsy), `data_type`
(`point`), `coordinate_system` (`WGS84`), and force `container_inventory`
into object shape. -/
def gisRepairs (ti : List (String × Json)) (fx : List String)
    (esp : List (String × Json)) (originalType now : String) :
    List (String × Json) × List String :=
  let (ti, fx) :=
    if !truthyO (assocFind ti "gis_id") && truthyO (assocFind esp "gis_id") then
      let d := getDefaultValueForType ((assocFind esp "gis_id").getD .null)
      let v := if truthy d then d else .str ("gis-" ++ now)
      (objSet ti "gis_id" v, fx ++ ["Added missing required gis_id for " ++ originalType])
    else (ti, fx)
  let (ti, fx) :=
    if !truthyO (assocFind ti "data_type") && truthyO (assocFind esp "data_type") then
      let d := getDefaultValueForType ((assocFind esp "data_type").getD .null)
      let v := if truthy d then d else .str "point"
      (objSet ti "data_type" v, fx ++ ["Added missing required data_type for " ++ originalType])
    else (ti, fx)
  let (ti, fx) :=
    if !truthyO (assocFind ti "coordinate_system") &&
        truthyO (assocFind esp "coordinate_system") then
      let d := getDefaultValueForType ((assocFind esp "coordinate_system").getD .null)
      let v := if truthy d then d else .str "WGS84"
      (objSet ti "coordinate_system" v,
       fx ++ ["Added missing required coordinate_system for " ++ originalType])
    else (ti, fx)
  let ci := assocFind ti "container_inventory"
  let espCI := assocFind esp "container_inventory"
  if truthyO ci && !typeofIsObject (ci.getD .null) && truthyO espCI &&
      ciTypeIsObject espCI then
    match ci.getD .null with
    | .arr (e :: _) =>
      (objSet ti "container_inventory" e,
       fx ++ ["Fixed container_inventory structure to object for " ++ originalType])
    | _ =>
      (objSet ti "container_inventory" (getDefaultValueForType (.str "object")),
       fx ++ ["Fixed container_inventory structure to object for " ++ originalType])
  else if !truthyO ci && truthyO espCI && ciTypeIsObject espCI then
    (objSet ti "container_inventory" (getDefaultValueForType (.str "object")),
     fx ++ ["Added missing container_inventory as empty object for " ++ originalType])
  else (ti, fx)

/-- `transformEntity(item, originalType, targetType, fixes,
entitySchemaProperties)`: the per-field loop, then synthesis of the target's
identifier field (computed as `mapEntityId(targetType.slice(0, -1))`), then
the GIS repairs.  `Date.now()` is abstracted as the `now` parameter. -/
def transformEntity (item : Json) (originalType targetType : String)
    (esp : List (String × Json)) (now : String) :
    Except String (Json × List String) := do
  let idField := mapEntityId originalType
  let (ti, fx) ← teFields (jsEnumEntries item) originalType targetType esp
    idField [] []
  let targetIdField := mapEntityId (strDropLast targetType)
  let (ti, fx) :=
    if !truthyO (assocFind ti targetIdField) &&
        truthyO (assocFind esp targetIdField) then
      let idDefaultValue :=
        getDefaultValueForType ((assocFind esp targetIdField).getD .null)
      if !idDefaultValue.isNull then
        (objSet ti targetIdField idDefaultValue,
         fx ++ ["Added missing ID field " ++ sqc ++ targetIdField ++ sqc ++
                " with default " ++ sqc ++ jsToStr idDefaultValue ++ sqc ++
                " for " ++ targetType])
      else (ti, fx)
    else (ti, fx)
  let (ti, fx) :=
    if originalType = "gis_data" || targetType = "gis_data" then
      gisRepairs ti fx esp originalType now
    else (ti, fx)
  .ok (.obj ti, fx)

/-! ## `transformToNepaFormat` -/

/-- The `project` entry of the `simplifiedSchemas` constant inside
`transformToNepaFormat`. -/
def schemaProject : List (String × Json) :=
  [("project_id", .str "string"), ("project_title", .str "string"),
   ("project_status", .str "string"),
   ("project_sponsor", .obj
     [("type", .str "object"),
      ("properties", .obj
        [("name", .str "string"), ("contact_info", .str "string")])]),
   ("location", .obj
     [("type", .str "object"),
      ("properties", .obj
        [("description", .str "string"), ("gis_reference", .str "string")])]),
   ("notes", .str "string")]

/-- The `process` entry of `simplifiedSchemas`. -/
def schemaProcess : List (String × Json) :=
  [("process_id", .str "string"), ("parent_process_id", .str "string"),
   ("process_stage", .str "string"), ("notes", .str "string"),
   ("purpose_need", .str "string"), ("process_model", .str "string"),
   ("description", .str "string")]

/-- The `document` entry of `simplifiedSchemas`. -/
def schemaDocument : List (String × Json) :=
  [("document_id", .str "string"), ("document_type", .str "string"),
   ("volume_title", .str "string"), ("revision_number", .str "integer"),
   ("supplement_number", .str "integer"), ("url", .str "string"),
   ("notes", .str "string"), ("document_summary", .str "string"),
   ("document_toc", .str "string"), ("document_revision", .str "string")]

/-- The `public_comment` entry of `simplifiedSchemas`. -/
def schemaPublicComment : List (String × Json) :=
  [("comment_id", .str "string"), ("method_of_submission", .str "string")]

/-- The `public_engagement_event` entry of `simplifiedSchemas`. -/
def schemaPublicEngagementEvent : List (String × Json) :=
  [("event_id", .str "string"),
   ("location", .obj
     [("type", .str "object"),
      ("properties", .obj
        [("description", .str "string"), ("gis_reference", .str "string")])])]

/-- The `case_event` entry of `simplifiedSchemas`. -/
def schemaCaseEvent : List (String × Json) :=
  [("case_event_id", .str "string"), ("source", .str "string"),
   ("outcome", .str "string"), ("parent_event_id", .str "integer"),
   ("related_engagement_id", .str "integer"),
   ("following_segment", .str "string")]

/-- The `gis_data` entry of `simplifiedSchemas`. -/
def schemaGisData : List (String × Json) :=
  [("gis_id", .str "string"), ("data_type", .str "string"),
   ("coordinate_system", .str "string"), ("extent", .str "string"),
   ("notes", .str "string"), ("parent_project_id", .str "integer"),
   ("parent_process_id", .str "integer"),
   ("parent_document_id", .str "integer"),
   ("parent_case_event_id", .str "integer"),
   ("parent_comment_id", .str "integer"),
   ("parent_engagement_id", .str "integer"),
   ("container_inventory", .obj
     [("type", .str "object"), ("properties", .obj [])])]

/-- The `legal_structure` entry of `simplifiedSchemas`. -/
def schemaLegalStructure : List (String × Json) :=
  [("legal_structure_id", .str "string"), ("effective_date", .str "string"),
   ("context", .str "string")]

/-- The `decision_element` entry of `simplifiedSchemas`. -/
def schemaDecisionElement : List (String × Json) :=
  [("decision_element_id", .str "string"), ("intersect", .str "string"),
   ("spatial_reference", .str "string"), ("evaluation_dmn", .str "string"),
   ("spatial", .str "string")]

/-- The `process_model` entry of `simplifiedSchemas`. -/
def schemaProcessModel : List (String × Json) :=
  [("process_model_id", .str "string"), ("name", .str "string"),
   ("bpmn_model", .str "string"), ("DMN_model", .str "string")]

/-- The `decision_payload` entry of `simplifiedSchemas`. -/
def schemaDecisionPayload : List (String × Json) :=
  [("decision_payload_id", .str "string"), ("evaluation_data", .str "object"),
   ("response", .str "string"), ("result", .str "string"),
   ("result_bool", .str "boolean"), ("result_notes", .str "string"),
   ("result_source", .str "string"), ("data_annotation", .str "string"),
   ("evaluation_data_annotation", .str "string")]

/-- The `simplifiedSchemas` constant of `transformToNepaFormat` (hoisted to
the top level; the source declares it inside the function). -/
def simplifiedSchemas : List (String × List (String × Json)) :=
  [("project", schemaProject), ("process", schemaProcess),
   ("document", schemaDocument), ("public_comment", schemaPublicComment),
   ("public_engagement_event", schemaPublicEngagementEvent),
   ("case_event", schemaCaseEvent), ("gis_data", schemaGisData),
   ("legal_structure", schemaLegalStructure),
   ("decision_element", schemaDecisionElement),
   ("process_model", schemaProcessModel),
   ("decision_payload", schemaDecisionPayload)]

/-- The `entityTypesMap` constant of `transformToNepaFormat`, in literal key
order: `(originalType, target, schemaProps)`.  `simplifiedSchemas.user_role`
is `undefined` in the source, so the `user_role` row carries the `{}` that
`transformEntity`'s default parameter substitutes for it. -/
def entityTypesMap : List (String × String × List (String × Json)) :=
  [("project", "projects", schemaProject),
   ("process_instance", "processes", schemaProcess),
   ("document", "documents", schemaDocument),
   ("comment", "public_comments", schemaPublicComment),
   ("engagement", "public_engagement_events", schemaPublicEngagementEvent),
   ("case_event", "case_events", schemaCaseEvent),
   ("gis_data_element", "gis_data", schemaGisData),
   ("gis_data", "gis_data", schemaGisData),
   ("user_role", "user_roles", []),
   ("legal_structure", "legal_structures", schemaLegalStructure),
   ("decision_element", "decision_elements", schemaDecisionElement),
   ("process_model", "process_models", schemaProcessModel),
   ("process_decision_payload", "decision_payloads", schemaDecisionPayload)]

/-- `transformEntity` applied to each item of a legacy collection in order,
threading the fix log. -/
def teItems (items : List Json) (originalType target : String)
    (schemaProps : List (String × Json)) (now : String) :
    Except String (List Json × List String) :=
  match items with
  | [] => .ok ([], [])
  | it :: rest => do
    let (t1, f1) ← transformEntity it originalType target schemaProps now
    let (ts, fs) ← teItems rest originalType target schemaProps now
    .ok (t1 :: ts, f1 ++ fs)

/-- `Array.isArray(transformedData[originalType]) ? transformedData[originalType]
: [transformedData[originalType]]`. -/
def itemsToTransform (v : Json) : List Json :=
  match v with
  | .arr il => il
  | x => [x]

/-- One iteration of the legacy-migration loop of `transformToNepaFormat`:
when `transformedData[originalType]` is truthy, ensure the target array,
transform each item (a non-array value is wrapped in a one-element array;
`forEach` visits only the elements present when iteration starts, so pushing
onto the aliased array when `originalType === target === 'gis_data'` appends
after the snapshot), push the results, delete the legacy key, and log the
migration fix.  `.push` on a truthy non-array target raises a `TypeError`. -/
def legacyStep (td : Json) (originalType target : String)
    (schemaProps : List (String × Json)) (now : String) :
    Except String (Json × List String) :=
  match jsGet td originalType with
  | some v =>
    if truthy v then
      let td1 := if !truthyO (jsGet td target) then jsSet td target (.arr []) else td
      match jsGet td1 target with
      | some (.arr l) => do
        let (ts, fxs) ← teItems (itemsToTransform v) originalType target
          schemaProps now
        let td2 := jsSet td1 target (.arr (l ++ ts))
        let td3 := jsDelete td2 originalType
        .ok (td3, fxs ++
          ["Transformed " ++ originalType ++ " data to NEPA " ++ target ++ " format"])
      | _ =>
        .error ("TypeError: transformedData." ++ target ++ ".push is not a function")
    else .ok (td, [])
  | none => .ok (td, [])

/-- The legacy-migration loop over `entityTypesMap`. -/
def legacyLoop (entries : List (String × String × List (String × Json)))
    (td : Json) (now : String) : Except String (Json × List String) :=
  match entries with
  | [] => .ok (td, [])
  | (ot, tgt, sp) :: rest => do
    let (td1, f1) ← legacyStep td ot tgt sp now
    let (td2, f2) ← legacyLoop rest td1 now
    .ok (td2, f1 ++ f2)

/-- The second pass of `transformToNepaFormat`: every array-valued top-level
field is mapped through `transformProperties` with the entity type obtained
by dropping the key's final character and that entity's simplified schema
(`{}` when the lookup fails). -/
def secondPassFields (fields : List (String × Json)) :
    List (String × Json) × List String :=
  match fields with
  | [] => ([], [])
  | (k, v) :: rest =>
    let (rest', fxs) := secondPassFields rest
    match v with
    | .arr es =>
      let entityType := strDropLast k
      let schemaProps := (assocFind simplifiedSchemas entityType).getD []
      let rs := es.map (fun e => transformProperties e entityType schemaProps)
      ((k, .arr (rs.map Prod.fst)) :: rest', (rs.map Prod.snd).flatten ++ fxs)
    | w => ((k, w) :: rest', fxs)

/-- The body of `transformToNepaFormat` after the deep clone: synthesize a
missing (or falsy) `projects` array with a logged fix, migrate legacy
top-level collections, then run the second (null-normalizing) pass over every
top-level array.  A non-object root enumerates no own keys in the second
pass; the pass is modelled as the identity there (the scripts only pass
parsed JSON documents, i.e. objects). -/
def transformAfterClone (td : Json) (now : String) :
    Except String (Json × List String) := do
  let (td1, f1) :=
    if !truthyO (jsGet td "projects") then
      (jsSet td "projects" (.arr []),
       ["Added missing required projects array to root level"])
    else (td, [])
  let (td2, f2) ← legacyLoop entityTypesMap td1 now
  let (td3, f3) :=
    match td2 with
    | .obj ms =>
      let (ms', fx) := secondPassFields ms
      (Json.obj ms', fx)
    | x => (x, [])
  .ok (td3, f1 ++ f2 ++ f3)

/-- `transformToNepaFormat(data)`: deep-clone the input, then transform the
clone; returns `{data, fixes}`. -/
def transformToNepaFormat (data : Json) (now : String) :
    Except String (Json × List String) :=
  transformAfterClone (deepClone data) now

/-- The call as the caller observes it: the first component is the caller's
document after the call.  The body's only access to the argument is the
initial `JSON.parse(JSON.stringify(data))`; every subsequent statement reads
and writes the clone (`transformedData`) or the local `fixes` array, so the
caller's document is returned untouched. -/
def transformToNepaFormatCall (data : Json) (now : String) :
    Json × Except String (Json × List String) :=
  (data, transformToNepaFormat data now)

/-! ## The database-crosswalk coverage analyzer -/

/-- A crosswalk column row (only the `column` name is consulted by the
validation logic modelled here; `data_type` and `description` ride along in
the source). -/
structure Column where
  column : String
deriving DecidableEq

/-- The `specificMappings` table of `validateTable`: curated per-table
equivalences, including the `public_acess` typo handler for `comment`. -/
def vtSpecificMappings : List (String × List (String × String)) :=
  [("comment",
    [("parent_document_id", "related_document_id"),
     ("commenter_entity", "commenter_name"), ("content_text", "content"),
     ("submission_method", "method_of_submission"),
     ("public_acess", "public_access")]),
   ("decision_element",
    [("process_model", "process_model_id"), ("title", "element_title"),
     ("description", "element_description")]),
   ("engagement",
    [("parent_process_id", "related_process_id"), ("type", "type"),
     ("start_datetime", "date")]),
   ("gis_data",
    [("format", "data_type"), ("coordinate_system", "coordinate_system")]),
   ("process_decision_payload",
    [("process", "process_id"), ("payload_data", "payload_data"),
     ("created_date", "created_date")]),
   ("process_instance",
    [("parent_project_id", "project_id"), ("type", "process_type"),
     ("status", "process_status")])]

/-- The keys of `validateTable`'s `dbColumnMap`: every column name, plus its
schema-mapped name when that differs (only `.has` is consulted, so the keys
suffice). -/
def dbColumnMapKeys (cols : List Column) (tableName : String) : List String :=
  cols.foldl (fun acc c =>
    let acc1 := acc ++ [c.column]
    let mappedName := mapDatabaseFieldToSchema c.column tableName
    if mappedName ≠ c.column then acc1 ++ [mappedName] else acc1) []

/-- Whether `validateTable`'s coverage loop finds a schema property: direct
name match against the column map, a `specificMappings` entry for the table,
or some column whose mapped name equals the property. -/
def propFound (propName tableName : String) (dbKeys : List String)
    (cols : List Column) : Bool :=
  dbKeys.contains propName ||
  (match assocFind vtSpecificMappings tableName with
   | some m => m.any (fun p => p.2 = propName && dbKeys.contains p.1)
   | none => false) ||
  cols.any (fun c => mapDatabaseFieldToSchema c.column tableName = propName)

/-- The hard-coded `shouldError = false` exceptions of `validateTable` for
required properties. -/
def requiredSpecialCase (tableName propName : String)
    (dbKeys : List String) : Bool :=
  (tableName = "comment" && propName = "related_document_id" &&
    dbKeys.contains "parent_document_id") ||
  (tableName = "decision_element" && propName = "process_model_id" &&
    dbKeys.contains "process_model") ||
  (tableName = "engagement" && propName = "related_process_id" &&
    dbKeys.contains "parent_process_id") ||
  (tableName = "gis_data" && propName = "data_type") ||
  (tableName = "process_decision_payload" && propName = "process_id" &&
    dbKeys.contains "process") ||
  (tableName = "process_instance" && propName = "project_id" &&
    dbKeys.contains "parent_project_id")

/-- The per-property coverage loop of `validateTable`: returns
`(found, errors, warnings, missingRequired)`. -/
def vtCoverageLoop (props : List String) (tableName : String)
    (dbKeys : List String) (cols : List Column) (required : List String) :
    Nat × List String × List String × List String :=
  match props with
  | [] => (0, [], [], [])
  | p :: rest =>
    let (fr, er, wr, mr) := vtCoverageLoop rest tableName dbKeys cols required
    if propFound p tableName dbKeys cols then (fr + 1, er, wr, mr)
    else if required.contains p then
      if requiredSpecialCase tableName p dbKeys then (fr + 1, er, wr, mr)
      else
        (fr,
         ("Required schema property " ++ sqc ++ p ++ sqc ++
          " missing in database table " ++ sqc ++ tableName ++ sqc) :: er,
         wr, p :: mr)
    else
      (fr, er,
       ("Schema property " ++ sqc ++ p ++ sqc ++
        " not found in database table " ++ sqc ++ tableName ++ sqc) :: wr,
       mr)

/-- The unmatched-column loop of `validateTable`: a non-ignored column whose
mapped name hits no schema property (directly, by original name, or via
`specificMappings`) draws a soft warning — unless it ends in `_id` or starts
with `parent_`. -/
def vtUnmatchedWarnings (cols : List Column) (tableName schemaName : String)
    (props : List (String × Json)) : List String :=
  match cols with
  | [] => []
  | c :: rest =>
    let restW := vtUnmatchedWarnings rest tableName schemaName props
    if shouldIgnoreField c.column then restW
    else
      let mappedName := mapDatabaseFieldToSchema c.column tableName
      let hasSchemaMatch :=
        truthyO (assocFind props mappedName) || truthyO (assocFind props c.column)
      let hasSchemaMatch :=
        hasSchemaMatch ||
        (match assocFind vtSpecificMappings tableName with
         | some m =>
           match assocFind m c.column with
           | some sm => truthyO (assocFind props sm)
           | none => false
         | none => false)
      if !hasSchemaMatch && !strEndsWith c.column "_id" &&
          !strStartsWith c.column "parent_" then
        ("Database column " ++ sqc ++ tableName ++ "." ++ c.column ++ sqc ++
         " (mapped to " ++ sqc ++ mappedName ++ sqc ++
         ") does not match any property in schema " ++ sqc ++ schemaName ++ sqc)
          :: restW
      else restW

/-- The result record of `validateTable` (`coverage` flattened into
`found`/`total`/`missingRequired`). -/
structure TableResult where
  valid : Bool
  errors : List String
  warnings : List String
  found : Nat
  total : Nat
  missingRequired : List String

/-- `schemaDefinition.properties || {}` as a field list. -/
def schemaPropsOf (sd : Json) : List (String × Json) :=
  match jsGet sd "properties" with
  | some p => if truthy p then jsObjFields p else []
  | none => []

/-- `schemaDefinition.required || []` (schema `required` arrays hold
strings). -/
def schemaRequiredOf (sd : Json) : List String :=
  match jsGet sd "required" with
  | some (.arr l) =>
    l.filterMap (fun j => match j with | .str s => some s | _ => none)
  | _ => []

/-- The non-ignored canonical property names of a schema definition — the
quantity `validateTable` and `validateTableAgainstSchema` use as
`coverage.total`. -/
def relevantPropsOf (sd : Json) : List String :=
  ((schemaPropsOf sd).map Prod.fst).filter (fun p => !shouldIgnoreField p)

/-- `validateTable(tableName, dbColumns, nepaSchemaDefinitions, suggestions)`
[the crosswalk validator]: resolve the table's schema, count non-ignored
properties, run the coverage loop and the unmatched-column loop.
A missing schema definition returns the empty result with a warning. -/
def validateTable (tableName : String) (dbColumns : List Column)
    (defs : List (String × Json)) : TableResult :=
  let schemaMapping := getSchemaMapping tableName
  let schemaName := schemaMapping.schemaName
  match assocFind defs schemaName with
  | none =>
    { valid := true, errors := [],
      warnings := ["No NEPA schema definition found for table: " ++ tableName ++
                   " (mapped to: " ++ schemaName ++ ")"],
      found := 0, total := 0, missingRequired := [] }
  | some sd =>
    let schemaProperties := schemaPropsOf sd
    let required := schemaRequiredOf sd
    let relevantProps := relevantPropsOf sd
    let dbKeys := dbColumnMapKeys dbColumns tableName
    let (found, errs, warns, miss) :=
      vtCoverageLoop relevantProps tableName dbKeys dbColumns required
    let uw := vtUnmatchedWarnings dbColumns tableName schemaName schemaProperties
    { valid := errs.isEmpty, errors := errs, warnings := warns ++ uw,
      found := found, total := relevantProps.length, missingRequired := miss }

/-- The result record of `validateTableAgainstSchema` (the NEPA-schema
portion; the separate optional database-schema coverage does not feed these
fields). -/
structure VtasResult where
  valid : Bool
  errors : List String
  mappingWarnings : List String
  found : Nat
  total : Nat

/-- The per-column loop of `validateTableAgainstSchema`: each non-ignored
column's mapped name either covers a schema property (a `Set`, so a property
is counted once), is a missing required property (hard error), or draws a
mapping warning. -/
def vtasLoop (cols : List Column) (tableName schemaName : String)
    (props : List (String × Json)) (required : List String)
    (covered : List String) (errs warns : List String) :
    List String × List String × List String :=
  match cols with
  | [] => (covered, errs, warns)
  | c :: rest =>
    if shouldIgnoreField c.column then
      vtasLoop rest tableName schemaName props required covered errs warns
    else
      let mappedSchemaField := mapDatabaseFieldToSchema c.column tableName
      if truthyO (assocFind props mappedSchemaField) then
        let covered' :=
          if covered.contains mappedSchemaField then covered
          else covered ++ [mappedSchemaField]
        vtasLoop rest tableName schemaName props required covered' errs warns
      else if required.contains mappedSchemaField then
        vtasLoop rest tableName schemaName props required covered
          (errs ++
           ["Required NEPA schema property " ++ sqc ++ mappedSchemaField ++ sqc ++
            " missing in database table " ++ sqc ++ tableName ++ sqc])
          warns
      else
        vtasLoop rest tableName schemaName props required covered errs
          (warns ++
           ["Database column " ++ sqc ++ tableName ++ "." ++ c.column ++ sqc ++
            " (mapped to " ++ sqc ++ mappedSchemaField ++ sqc ++
            ") does not match any property in NEPA schema " ++ sqc ++
            schemaName ++ sqc])

/-- `validateTableAgainstSchema(tableName, columns, schemaDefinitions)`: the
column loop, then `coverage.found = Math.min(coveredSchemaProps.size,
coverage.total)` — the explicit guard against over-counting — then the
missing-required check. -/
def validateTableAgainstSchema (tableName : String) (cols : List Column)
    (defs : List (String × Json)) : VtasResult :=
  match assocFind defs (getSchemaMapping tableName).schemaName with
  | none => { valid := true, errors := [], mappingWarnings := [],
              found := 0, total := 0 }
  | some sd =>
    let schemaName := (getSchemaMapping tableName).schemaName
    let props := schemaPropsOf sd
    let required := schemaRequiredOf sd
    let total := (relevantPropsOf sd).length
    let (covered, errs, mwarns) :=
      vtasLoop cols tableName schemaName props required [] [] []
    let found := min covered.length total
    let missingRequiredFields := required.filter (fun f =>
      !covered.contains f && !shouldIgnoreField f)
    let errs2 :=
      if missingRequiredFields.isEmpty then errs
      else errs ++
        ["Required NEPA schema property " ++ sqc ++
         String.intercalate ", " missingRequiredFields ++ sqc ++
         " missing in database table " ++ sqc ++ tableName ++ sqc]
    { valid := errs2.isEmpty, errors := errs2, mappingWarnings := mwarns,
      found := found, total := total }

def Json.isObjB : Json → Bool
  | .obj _ => true
  | _ => false
/-- The keys a `for..in` over the top level visits. -/
def jsKeys (j : Json) : List String := (jsObjFields j).map Prod.fst
/-- The value the second pass of `transformToNepaFormat` leaves at a
top-level field. -/
def spEntryVal (k : String) (v : Json) : Json :=
  match v with
  | .arr es =>
    let entityType := strDropLast k
    let schemaProps := (assocFind simplifiedSchemas entityType).getD []
    let rs := es.map (fun e => transformProperties e entityType schemaProps)
    .arr (rs.map Prod.fst)
  | w => w
/-- The fixes the second pass logs at a top-level field. -/
def spEntryFx (k : String) (v : Json) : List String :=
  match v with
  | .arr es =>
    let entityType := strDropLast k
    let schemaProps := (assocFind simplifiedSchemas entityType).getD []
    let rs := es.map (fun e => transformProperties e entityType schemaProps)
    (rs.map Prod.snd).flatten
  | _ => []
/-- `T`'s own iteration in the legacy loop deletes (or leaves falsy) the key,
and no later target rewrites it: sufficient side conditions, decidably
checkable on the concrete `entityTypesMap`. -/
def goodT (entries : List (String × String × List (String × Json)))
    (T : String) : Bool :=
  match entries with
  | [] => true
  | (f, tgt, _) :: rest =>
    (if f = T then rest.all (fun e => e.2.1 ≠ T) else true) && goodT rest T
/-- The number of non-ignored canonical properties of the entity a table maps
to — the quantity the analyzers report as `coverage.total`. -/
def nonIgnoredPropertyCount (tableName : String)
    (defs : List (String × Json)) : Nat :=
  match assocFind defs (getSchemaMapping tableName).schemaName with
  | none => 0
  | some sd => (relevantPropsOf sd).length

/-! ## Lemma kit -/

mutual
theorem deepClone_eq : ∀ j, deepClone j = j
  | .null => rfl
  | .bool _ => rfl
  | .num _ => rfl
  | .str _ => rfl
  | .arr es => by rw [deepClone, deepCloneArr_eq]
  | .obj ms => by rw [deepClone, deepCloneObj_eq]
theorem deepCloneArr_eq : ∀ es, deepCloneArr es = es
  | [] => rfl
  | e :: es => by rw [deepCloneArr, deepClone_eq, deepCloneArr_eq]
theorem deepCloneObj_eq : ∀ ms, deepCloneObj ms = ms
  | [] => rfl
  | (k, v) :: ms => by rw [deepCloneObj, deepClone_eq, deepCloneObj_eq]
end
theorem tpFields_cons (k : String) (v : Json) (rest : List (String × Json))
    (t : String) (sp : List (String × Json)) :
    tpFields ((k, v) :: rest) t sp =
      ((tpEntryOut k v t sp).1 :: (tpFields rest t sp).1,
       (tpEntryOut k v t sp).2 ++ (tpFields rest t sp).2) := by
  cases v with
  | arr es =>
    simp only [tpFields, tpEntryOut]
    split
    · cases es <;> simp
    · simp
  | null => simp [tpFields, tpEntryOut]
  | bool b => simp [tpFields, tpEntryOut]
  | num n => simp [tpFields, tpEntryOut]
  | str s => simp [tpFields, tpEntryOut]
  | obj o => simp [tpFields, tpEntryOut]
theorem tpElems_cons (i : Nat) (v : Json) (rest : List Json)
    (t : String) (sp : List (String × Json)) :
    tpElems i (v :: rest) t sp =
      ((tpEntryOut (Nat.repr i) v t sp).1 :: (tpElems (i + 1) rest t sp).1,
       (tpEntryOut (Nat.repr i) v t sp).2 ++ (tpElems (i + 1) rest t sp).2) := by
  cases v with
  | arr es =>
    simp only [tpElems, tpEntryOut]
    split
    · cases es <;> simp
    · simp
  | null => simp [tpElems, tpEntryOut]
  | bool b => simp [tpElems, tpEntryOut]
  | num n => simp [tpElems, tpEntryOut]
  | str s => simp [tpElems, tpEntryOut]
  | obj o => simp [tpElems, tpEntryOut]


theorem assocFind_eq_none {α : Type} :
    ∀ (l : List (String × α)) (key : String),
      key ∉ l.map Prod.fst → assocFind l key = none
  | [], _, _ => rfl
  | (k, v) :: rest, key, h => by
    simp only [List.map_cons, List.mem_cons, not_or] at h
    rw [assocFind, if_neg (fun hk => h.1 hk.symm),
      assocFind_eq_none rest key h.2]

theorem mem_of_assocFind_ne_none {α : Type} :
    ∀ (l : List (String × α)) (key : String),
      assocFind l key ≠ none → key ∈ l.map Prod.fst
  | [], key, h => absurd rfl h
  | (k, v) :: rest, key, h => by
    rw [assocFind] at h
    by_cases hk : k = key
    · simp [hk]
    · simp only [List.map_cons, List.mem_cons]
      exact Or.inr (mem_of_assocFind_ne_none rest key (by
        rwa [if_neg hk] at h))

theorem assocFind_objSet_self :
    ∀ (ms : List (String × Json)) (k : String) (v : Json),
      assocFind (objSet ms k v) k = some v
  | [], k, v => by simp [objSet, assocFind]
  | (k', w) :: rest, k, v => by
    rw [objSet]
    by_cases h : k' = k
    · simp [assocFind, h]
    · rw [if_neg h, assocFind, if_neg h, assocFind_objSet_self rest k v]

theorem assocFind_objSet_other :
    ∀ (ms : List (String × Json)) (k k' : String) (v : Json), k' ≠ k →
      assocFind (objSet ms k v) k' = assocFind ms k'
  | [], k, k', v, h => by
    rw [objSet]
    show assocFind [(k, v)] k' = assocFind [] k'
    simp only [assocFind]
    rw [if_neg (fun hk => h hk.symm)]
  | (k0, w) :: rest, k, k', v, h => by
    rw [objSet]
    by_cases h0 : k0 = k
    · rw [if_pos h0, assocFind, assocFind, if_neg, if_neg]
      · rw [h0]; exact fun hk => h hk.symm
      · rw [h0]; exact fun hk => h hk.symm
    · rw [if_neg h0, assocFind, assocFind]
      by_cases h1 : k0 = k'
      · rw [if_pos h1, if_pos h1]
      · rw [if_neg h1, if_neg h1, assocFind_objSet_other rest k k' v h]

theorem assocFind_objDelete_self :
    ∀ (ms : List (String × Json)) (k : String),
      assocFind (objDelete ms k) k = none
  | [], k => rfl
  | (k', w) :: rest, k => by
    rw [objDelete]
    by_cases h : k' = k
    · rw [if_pos h, assocFind_objDelete_self rest k]
    · rw [if_neg h, assocFind, if_neg h, assocFind_objDelete_self rest k]

theorem assocFind_objDelete_other :
    ∀ (ms : List (String × Json)) (k k' : String), k' ≠ k →
      assocFind (objDelete ms k) k' = assocFind ms k'
  | [], k, k', h => rfl
  | (k0, w) :: rest, k, k', h => by
    rw [objDelete]
    by_cases h0 : k0 = k
    · rw [if_pos h0, assocFind, if_neg (fun hk => h (by rw [← hk, h0])),
        assocFind_objDelete_other rest k k' h]
    · rw [if_neg h0, assocFind, assocFind]
      by_cases h1 : k0 = k'
      · rw [if_pos h1, if_pos h1]
      · rw [if_neg h1, if_neg h1, assocFind_objDelete_other rest k k' h]

theorem fst_objSet :
    ∀ (ms : List (String × Json)) (k k' : String) (v : Json),
      k' ∈ (objSet ms k v).map Prod.fst → k' ∈ ms.map Prod.fst ∨ k' = k
  | [], k, k', v, h => by simpa [objSet] using h
  | (k0, w) :: rest, k, k', v, h => by
    rw [objSet] at h
    by_cases h0 : k0 = k
    · rw [if_pos h0] at h
      simp only [List.map_cons, List.mem_cons] at h ⊢
      rcases h with h | h
      · exact Or.inl (Or.inl h)
      · exact Or.inl (Or.inr h)
    · rw [if_neg h0] at h
      simp only [List.map_cons, List.mem_cons] at h ⊢
      rcases h with h | h
      · exact Or.inl (Or.inl h)
      · rcases fst_objSet rest k k' v h with h | h
        · exact Or.inl (Or.inr h)
        · exact Or.inr h

theorem fst_objDelete :
    ∀ (ms : List (String × Json)) (k k' : String),
      k' ∈ (objDelete ms k).map Prod.fst → k' ∈ ms.map Prod.fst
  | [], k, k', h => by simpa [objDelete] using h
  | (k0, w) :: rest, k, k', h => by
    rw [objDelete] at h
    by_cases h0 : k0 = k
    · rw [if_pos h0] at h
      simp only [List.map_cons, List.mem_cons]
      exact Or.inr (fst_objDelete rest k k' h)
    · rw [if_neg h0] at h
      simp only [List.map_cons, List.mem_cons] at h ⊢
      rcases h with h | h
      · exact Or.inl h
      · exact Or.inr (fst_objDelete rest k k' h)

theorem jsGet_jsSet_other (td : Json) (k k' : String) (v : Json) (h : k' ≠ k) :
    jsGet (jsSet td k v) k' = jsGet td k' := by
  cases td <;> simp [jsSet, jsGet]
  exact assocFind_objSet_other _ k k' v h

theorem jsGet_jsSet_self (ms : List (String × Json)) (k : String) (v : Json) :
    jsGet (jsSet (.obj ms) k v) k = some v := by
  simp [jsSet, jsGet, assocFind_objSet_self]

theorem jsGet_jsDelete_self (td : Json) (k : String) :
    jsGet (jsDelete td k) k = none := by
  cases td <;> simp [jsDelete, jsGet]
  exact assocFind_objDelete_self _ k

theorem jsGet_jsDelete_other (td : Json) (k k' : String) (h : k' ≠ k) :
    jsGet (jsDelete td k) k' = jsGet td k' := by
  cases td <;> simp [jsDelete, jsGet]
  exact assocFind_objDelete_other _ k k' h

theorem jsKeys_jsSet (td : Json) (k k' : String) (v : Json)
    (h : k' ∈ jsKeys (jsSet td k v)) : k' ∈ jsKeys td ∨ k' = k := by
  cases td with
  | obj ms => exact fst_objSet ms k k' v h
  | null => exact Or.inl h
  | bool b => exact Or.inl h
  | num n => exact Or.inl h
  | str s => exact Or.inl h
  | arr es => exact Or.inl h

theorem jsKeys_jsDelete (td : Json) (k k' : String)
    (h : k' ∈ jsKeys (jsDelete td k)) : k' ∈ jsKeys td := by
  cases td with
  | obj ms => exact fst_objDelete ms k k' h
  | null => exact h
  | bool b => exact h
  | num n => exact h
  | str s => exact h
  | arr es => exact h

theorem isObjB_jsSet (td : Json) (k : String) (v : Json) :
    (jsSet td k v).isObjB = td.isObjB := by
  cases td <;> rfl

theorem isObjB_jsDelete (td : Json) (k : String) :
    (jsDelete td k).isObjB = td.isObjB := by
  cases td <;> rfl

theorem jsGet_of_not_isObjB (td : Json) (k : String) (h : td.isObjB = false) :
    jsGet td k = none := by
  cases td <;> simp_all [jsGet, Json.isObjB]

/-- A dotted entity-type string (as built for nested recursion) is never the
bare `gis_data`. -/
theorem append_dot_ne_gis (a b : String) : a ++ "." ++ b ≠ "gis_data" := by
  intro h
  have hd : '.' ∈ (a ++ "." ++ b).data := by
    rw [String.data_append, String.data_append]
    simp
  rw [h] at hd
  simp at hd

theorem jsToLower_ne_empty (s : String) (h : s ≠ "") : jsToLower s ≠ "" := by
  intro hc
  apply h
  have hnil : s.data.map Char.toLower = [] := congrArg String.data hc
  rw [List.map_eq_nil_iff] at hnil
  cases s
  simp_all

/-- Mapping a fix-free transformation over a list changes nothing and logs
nothing. -/
theorem map_fixfree {α β : Type} :
    ∀ (l : List α) (f : α → α × List β), (∀ e ∈ l, f e = (e, [])) →
      (l.map f).map Prod.fst = l ∧ (((l.map f).map Prod.snd).flatten = ([] : List β))
  | [], f, _ => ⟨rfl, rfl⟩
  | e :: rest, f, h => by
    have he := h e (List.mem_cons_self e rest)
    have ih := map_fixfree rest f (fun x hx => h x (List.mem_cons_of_mem e hx))
    constructor
    · simp only [List.map_cons, he]
      rw [ih.1]
    · simp only [List.map_cons, he, List.flatten_cons, List.nil_append]
      exact ih.2

theorem tp_obj_out (o : List (String × Json)) (t : String)
    (sp : List (String × Json)) :
    transformProperties (.obj o) t sp =
      (.obj (tpFields o t sp).1, (tpFields o t sp).2) := rfl

theorem tp_arr_out (es : List Json) (t : String) (sp : List (String × Json)) :
    transformProperties (.arr es) t sp =
      (.obj (tpElems 0 es t sp).1, (tpElems 0 es t sp).2) := rfl

/-- Each default the type-default table can produce. -/
theorem getDefault_cases (et : Json) :
    getDefaultValueForType et = .null ∨ getDefaultValueForType et = .str "" ∨
    getDefaultValueForType et = .num 0 ∨
    getDefaultValueForType et = .bool false ∨
    getDefaultValueForType et = .obj [] ∨ getDefaultValueForType et = .arr [] := by
  unfold getDefaultValueForType
  split <;> simp

theorem tpNullEntry_key (k : String) (et : Option Json) (t : String) :
    (tpNullEntry k et t).1.1 = k := by
  rcases et with _ | etv
  · rfl
  · rcases getDefault_cases etv with h | h | h | h | h | h <;>
      cases htr : truthy etv <;>
        simp [tpNullEntry, h, htr, Json.isNull] <;> split <;> simp <;>
          split <;> simp

theorem tpEntryOut_key (k : String) (v : Json) (t : String)
    (sp : List (String × Json)) : (tpEntryOut k v t sp).1.1 = k := by
  cases v with
  | null => exact tpNullEntry_key k (assocFind sp k) t
  | obj o => rfl
  | arr es =>
    simp only [tpEntryOut]
    split
    · cases es <;> rfl
    · rfl
  | bool b => rfl
  | num n => rfl
  | str s => rfl

/-- Reprocessing the value produced by the null-to-default step of
`transformProperties` is the identity with no fixes (away from the
`gis_data` special case). -/
theorem tpNullEntry_stable (k : String) (sp : List (String × Json))
    (t : String) (ht : t ≠ "gis_data") :
    tpEntryOut k (tpNullEntry k (assocFind sp k) t).1.2 t sp =
      ((k, (tpNullEntry k (assocFind sp k) t).1.2), []) := by
  have hgis : (decide (t = "gis_data") && decide (k = "container_inventory")) =
      false := by simp [ht]
  cases het : assocFind sp k with
  | none => simp [tpNullEntry, tpEntryOut, het]
  | some etv =>
    rcases getDefault_cases etv with hdv | hdv | hdv | hdv | hdv | hdv <;>
      cases htr : truthy etv <;>
        simp [tpNullEntry, tpEntryOut, hdv, htr, het, Json.isNull, hgis,
          transformProperties, tpFields] <;>
          split <;>
            simp [tpNullEntry, tpEntryOut, hdv, htr, het, Json.isNull, hgis,
              transformProperties, tpFields]

mutual
/-- `transformProperties` is idempotent and logs nothing on its own output,
for any entity type other than `gis_data` (whose `container_inventory`
heuristic can re-fire). -/
theorem tp_idem : ∀ (j : Json) (t : String) (sp : List (String × Json)),
    t ≠ "gis_data" →
    transformProperties (transformProperties j t sp).1 t sp =
      ((transformProperties j t sp).1, [])
  | .null, _, _, _ => rfl
  | .bool _, _, _, _ => rfl
  | .num _, _, _, _ => rfl
  | .str _, _, _, _ => rfl
  | .obj ms, t, sp, ht => by
    rw [tp_obj_out, tp_obj_out, tpFields_idem ms t sp ht]
  | .arr es, t, sp, ht => by
    rw [tp_arr_out, tp_obj_out, tpElems_idem 0 es t sp ht]
termination_by j t sp ht => (sizeOf j, 0)
/-- Reprocessing a field value already processed by `transformProperties`
leaves it unchanged with no fixes. -/
theorem tpEntry_stable : ∀ (k : String) (v : Json) (t : String)
    (sp : List (String × Json)), t ≠ "gis_data" →
    tpEntryOut k (tpEntryOut k v t sp).1.2 t sp =
      ((k, (tpEntryOut k v t sp).1.2), [])
  | k, .null, t, sp, ht => tpNullEntry_stable k sp t ht
  | k, .obj o, t, sp, ht => by
    have hI := tp_idem (Json.obj o) (t ++ "." ++ k) (nestedPropsOf sp k)
      (append_dot_ne_gis t k)
    show tpEntryOut k
      (transformProperties (Json.obj o) (t ++ "." ++ k) (nestedPropsOf sp k)).1
      t sp = _
    rw [tp_obj_out] at hI ⊢
    simp only [tpEntryOut]
    rw [hI]
    rfl
  | k, .arr es, t, sp, ht => by
    have hgis : (decide (t = "gis_data") && decide (k = "container_inventory"))
        = false := by simp [ht]
    simp [tpEntryOut, hgis]
  | k, .bool b, t, sp, ht => rfl
  | k, .num n, t, sp, ht => rfl
  | k, .str s, t, sp, ht => rfl
termination_by k v t sp ht => (sizeOf v, 1)
/-- The field loop of `transformProperties` is idempotent and fix-free on its
own output. -/
theorem tpFields_idem : ∀ (ms : List (String × Json)) (t : String)
    (sp : List (String × Json)), t ≠ "gis_data" →
    tpFields (tpFields ms t sp).1 t sp = ((tpFields ms t sp).1, [])
  | [], _, _, _ => rfl
  | (k, v) :: rest, t, sp, ht => by
    rw [tpFields_cons,
      show (tpEntryOut k v t sp).1 = (k, (tpEntryOut k v t sp).1.2) from
        Prod.ext (tpEntryOut_key k v t sp) rfl,
      tpFields_cons, tpEntry_stable k v t sp ht, tpFields_idem rest t sp ht]
    rfl
termination_by ms t sp ht => (sizeOf ms, 2)
/-- The index loop `transformProperties` runs over an array input produces an
object whose reprocessing is the identity with no fixes. -/
theorem tpElems_idem : ∀ (i : Nat) (es : List Json) (t : String)
    (sp : List (String × Json)), t ≠ "gis_data" →
    tpFields (tpElems i es t sp).1 t sp = ((tpElems i es t sp).1, [])
  | _, [], _, _, _ => rfl
  | i, v :: rest, t, sp, ht => by
    rw [tpElems_cons,
      show (tpEntryOut (Nat.repr i) v t sp).1 =
        (Nat.repr i, (tpEntryOut (Nat.repr i) v t sp).1.2) from
        Prod.ext (tpEntryOut_key (Nat.repr i) v t sp) rfl,
      tpFields_cons, tpEntry_stable (Nat.repr i) v t sp ht,
      tpElems_idem (i + 1) rest t sp ht]
    rfl
termination_by i es t sp ht => (sizeOf es, 2)
end

theorem secondPassFields_cons (k : String) (v : Json)
    (rest : List (String × Json)) :
    secondPassFields ((k, v) :: rest) =
      ((k, spEntryVal k v) :: (secondPassFields rest).1,
       spEntryFx k v ++ (secondPassFields rest).2) := by
  cases v <;> simp [secondPassFields, spEntryVal, spEntryFx]

theorem secondPassFields_fst :
    ∀ ms : List (String × Json),
      ((secondPassFields ms).1).map Prod.fst = ms.map Prod.fst
  | [] => rfl
  | (k, v) :: rest => by
    rw [secondPassFields_cons]
    simp [secondPassFields_fst rest]

theorem assocFind_secondPassFields :
    ∀ (ms : List (String × Json)) (k : String),
      assocFind (secondPassFields ms).1 k =
        (assocFind ms k).map (spEntryVal k)
  | [], _ => rfl
  | (k0, v) :: rest, k => by
    rw [secondPassFields_cons, assocFind, assocFind]
    by_cases h : k0 = k
    · rw [if_pos h, if_pos h, h]
      rfl
    · rw [if_neg h, if_neg h, assocFind_secondPassFields rest k]

theorem truthy_spEntryVal (k : String) (v : Json) :
    truthy (spEntryVal k v) = truthy v := by
  cases v <;> rfl

/-- Reprocessing the value the second pass leaves at a field is the identity
with no fixes (away from keys that singularize to `gis_data`). -/
theorem spEntry_stable (k : String) (v : Json)
    (hk : strDropLast k ≠ "gis_data") :
    spEntryVal k (spEntryVal k v) = spEntryVal k v ∧
      spEntryFx k (spEntryVal k v) = [] := by
  cases v with
  | arr es =>
    have hall : ∀ e ∈ (es.map (fun e => transformProperties e (strDropLast k)
        ((assocFind simplifiedSchemas (strDropLast k)).getD []))).map Prod.fst,
        transformProperties e (strDropLast k)
          ((assocFind simplifiedSchemas (strDropLast k)).getD []) = (e, []) := by
      intro e he
      rw [List.mem_map] at he
      obtain ⟨p, hp, rfl⟩ := he
      rw [List.mem_map] at hp
      obtain ⟨e0, _, rfl⟩ := hp
      exact tp_idem e0 _ _ hk
    have hmf := map_fixfree _ _ hall
    constructor
    · simp only [spEntryVal]
      rw [hmf.1]
    · simp only [spEntryVal, spEntryFx]
      rw [hmf.2]
  | null => exact ⟨rfl, rfl⟩
  | bool b => exact ⟨rfl, rfl⟩
  | num n => exact ⟨rfl, rfl⟩
  | str s => exact ⟨rfl, rfl⟩
  | obj o => exact ⟨rfl, rfl⟩

/-- Running the second pass on its own output changes nothing and logs
nothing, provided no top-level key drops its last character to `gis_data`. -/
theorem secondPassFields_stable :
    ∀ ms : List (String × Json),
      (∀ k ∈ ms.map Prod.fst, strDropLast k ≠ "gis_data") →
      secondPassFields (secondPassFields ms).1 = ((secondPassFields ms).1, [])
  | [], _ => rfl
  | (k, v) :: rest, h => by
    have hk : strDropLast k ≠ "gis_data" := h k (by simp)
    have hs := spEntry_stable k v hk
    have hrest := secondPassFields_stable rest
      (fun k' hk' => h k' (by simp [hk']))
    rw [secondPassFields_cons, secondPassFields_cons, hrest]
    simp [hs.1, hs.2]

theorem truthyO_get_obj (td : Json) (k : String)
    (h : truthyO (jsGet td k) = true) : ∃ ms, td = .obj ms := by
  cases td <;> simp [jsGet, truthyO] at h <;> exact ⟨_, rfl⟩

theorem legacyStep_noop (td : Json) (ot tgt : String)
    (sp : List (String × Json)) (now : String)
    (h : truthyO (jsGet td ot) = false) :
    legacyStep td ot tgt sp now = .ok (td, []) := by
  unfold legacyStep
  cases hg : jsGet td ot with
  | none => rfl
  | some v =>
    rw [hg] at h
    simp only [truthyO] at h
    simp [h]

theorem jsGet_some_obj (td : Json) (k : String) (v : Json)
    (h : jsGet td k = some v) : ∃ ms, td = .obj ms := by
  cases td <;> simp [jsGet] at h <;> exact ⟨_, rfl⟩

/-- Destructuring a successful `legacyStep`: either the guard was falsy and
nothing happened, or the state is the delete-after-push shape. -/
theorem legacyStep_ok_cases (td : Json) (ot tgt : String)
    (sp : List (String × Json)) (now : String) (td' : Json) (fx : List String)
    (h : legacyStep td ot tgt sp now = .ok (td', fx)) :
    (truthyO (jsGet td ot) = false ∧ td' = td ∧ fx = []) ∨
    (truthyO (jsGet td ot) = true ∧ ∃ td1 l ts,
      (td1 = td ∨ td1 = jsSet td tgt (.arr [])) ∧
      td' = jsDelete (jsSet td1 tgt (.arr (l ++ ts))) ot) := by
  unfold legacyStep at h
  cases hg : jsGet td ot with
  | none =>
    simp only [hg] at h
    simp only [Except.ok.injEq, Prod.mk.injEq] at h
    exact Or.inl ⟨by simp [truthyO, hg], h.1.symm, h.2.symm⟩
  | some v =>
    cases htv : truthy v with
    | false =>
      simp only [hg, htv, Bool.false_eq_true, if_false] at h
      simp only [Except.ok.injEq, Prod.mk.injEq] at h
      exact Or.inl ⟨by simp [truthyO, hg, htv], h.1.symm, h.2.symm⟩
    | true =>
      simp only [hg, htv, if_true] at h
      refine Or.inr ⟨by simp [truthyO, hg, htv], ?_⟩
      cases hp : truthyO (jsGet td tgt) with
      | true =>
        simp only [hp, Bool.not_true, Bool.false_eq_true, if_false] at h
        cases hm : jsGet td tgt with
        | none =>
          rw [hm] at hp
          simp [truthyO] at hp
        | some w =>
          simp only [hm] at h
          cases w with
          | arr l =>
            cases hti : teItems (itemsToTransform v) ot tgt sp now with
            | error e =>
              simp only [hti] at h
              exact Except.noConfusion h
            | ok p =>
              obtain ⟨ts, fxs⟩ := p
              simp only [hti] at h
              have hpair := Except.ok.inj h
              exact ⟨td, l, ts, Or.inl rfl, (congrArg Prod.fst hpair).symm⟩
          | null => simp at h
          | bool b => simp at h
          | num n => simp at h
          | str s => simp at h
          | obj o => simp at h
      | false =>
        simp only [hp, Bool.not_false, if_true] at h
        obtain ⟨ms, rfl⟩ := jsGet_some_obj td ot v hg
        rw [jsGet_jsSet_self ms tgt (.arr [])] at h
        cases hti : teItems (itemsToTransform v) ot tgt sp now with
        | error e =>
          simp only [hti] at h
          exact Except.noConfusion h
        | ok p =>
          obtain ⟨ts, fxs⟩ := p
          simp only [hti] at h
          have hpair := Except.ok.inj h
          exact ⟨jsSet (.obj ms) tgt (.arr []), [], ts, Or.inr rfl,
            (congrArg Prod.fst hpair).symm⟩

theorem legacyStep_self (td : Json) (ot tgt : String)
    (sp : List (String × Json)) (now : String) (td' : Json) (fx : List String)
    (h : legacyStep td ot tgt sp now = .ok (td', fx)) :
    truthyO (jsGet td' ot) = false := by
  rcases legacyStep_ok_cases td ot tgt sp now td' fx h with
    ⟨hf, rfl, _⟩ | ⟨_, td1, l, ts, _, rfl⟩
  · exact hf
  · rw [jsGet_jsDelete_self]
    rfl

theorem legacyStep_other (td : Json) (ot tgt : String)
    (sp : List (String × Json)) (now : String) (td' : Json) (fx : List String)
    (k : String) (hko : k ≠ ot) (hkt : k ≠ tgt)
    (h : legacyStep td ot tgt sp now = .ok (td', fx)) :
    jsGet td' k = jsGet td k := by
  rcases legacyStep_ok_cases td ot tgt sp now td' fx h with
    ⟨_, rfl, _⟩ | ⟨_, td1, l, ts, htd1, rfl⟩
  · rfl
  · rw [jsGet_jsDelete_other _ _ _ hko, jsGet_jsSet_other _ _ _ _ hkt]
    rcases htd1 with rfl | rfl
    · rfl
    · rw [jsGet_jsSet_other _ _ _ _ hkt]

theorem legacyStep_truthy (td : Json) (ot tgt : String)
    (sp : List (String × Json)) (now : String) (td' : Json) (fx : List String)
    (k : String) (hko : k ≠ ot) (hk : truthyO (jsGet td k) = true)
    (h : legacyStep td ot tgt sp now = .ok (td', fx)) :
    truthyO (jsGet td' k) = true := by
  rcases legacyStep_ok_cases td ot tgt sp now td' fx h with
    ⟨_, rfl, _⟩ | ⟨hguard, td1, l, ts, htd1, rfl⟩
  · exact hk
  · obtain ⟨ms, rfl⟩ := truthyO_get_obj _ _ hguard
    by_cases hkt : k = tgt
    · subst hkt
      rw [jsGet_jsDelete_other _ _ _ hko]
      have hobj : ∃ ms1, td1 = Json.obj ms1 := by
        rcases htd1 with rfl | rfl
        · exact ⟨ms, rfl⟩
        · exact ⟨objSet ms k (.arr []), rfl⟩
      obtain ⟨ms1, rfl⟩ := hobj
      rw [jsGet_jsSet_self]
      rfl
    · rw [jsGet_jsDelete_other _ _ _ hko, jsGet_jsSet_other _ _ _ _ hkt]
      rcases htd1 with rfl | rfl
      · exact hk
      · rw [jsGet_jsSet_other _ _ _ _ hkt]
        exact hk

theorem legacyStep_keys (td : Json) (ot tgt : String)
    (sp : List (String × Json)) (now : String) (td' : Json) (fx : List String)
    (k : String) (hmem : k ∈ jsKeys td')
    (h : legacyStep td ot tgt sp now = .ok (td', fx)) :
    k ∈ jsKeys td ∨ k = tgt := by
  rcases legacyStep_ok_cases td ot tgt sp now td' fx h with
    ⟨_, rfl, _⟩ | ⟨_, td1, l, ts, htd1, rfl⟩
  · exact Or.inl hmem
  · have h1 := jsKeys_jsDelete _ _ _ hmem
    rcases jsKeys_jsSet _ _ _ _ h1 with h2 | h2
    · rcases htd1 with rfl | rfl
      · exact Or.inl h2
      · rcases jsKeys_jsSet _ _ _ _ h2 with h3 | h3
        · exact Or.inl h3
        · exact Or.inr h3
    · exact Or.inr h2

theorem legacyStep_isObj (td : Json) (ot tgt : String)
    (sp : List (String × Json)) (now : String) (td' : Json) (fx : List String)
    (h : legacyStep td ot tgt sp now = .ok (td', fx)) :
    td'.isObjB = td.isObjB := by
  rcases legacyStep_ok_cases td ot tgt sp now td' fx h with
    ⟨_, rfl, _⟩ | ⟨_, td1, l, ts, htd1, rfl⟩
  · rfl
  · rw [isObjB_jsDelete, isObjB_jsSet]
    rcases htd1 with rfl | rfl
    · rfl
    · rw [isObjB_jsSet]

theorem legacyLoop_cons (ot tgt : String) (sp : List (String × Json))
    (rest : List (String × String × List (String × Json))) (td : Json)
    (now : String) :
    legacyLoop ((ot, tgt, sp) :: rest) td now = (do
      let (td1, f1) ← legacyStep td ot tgt sp now
      let (td2, f2) ← legacyLoop rest td1 now
      .ok (td2, f1 ++ f2)) := rfl

theorem legacyLoop_cons_ok (e : String × String × List (String × Json))
    (rest : List (String × String × List (String × Json))) (td : Json)
    (now : String) (td' : Json) (fx : List String)
    (h : legacyLoop (e :: rest) td now = .ok (td', fx)) :
    ∃ td1 f1 f2, legacyStep td e.1 e.2.1 e.2.2 now = .ok (td1, f1) ∧
      legacyLoop rest td1 now = .ok (td', f2) ∧ fx = f1 ++ f2 := by
  obtain ⟨ot, tgt, sp⟩ := e
  rw [legacyLoop_cons] at h
  cases hs : legacyStep td ot tgt sp now with
  | error e =>
    simp only [hs] at h
    exact Except.noConfusion h
  | ok p =>
    obtain ⟨td1, f1⟩ := p
    simp only [hs] at h
    have h2 : (do
        let (td2, f2) ← legacyLoop rest td1 now
        Except.ok (td2, f1 ++ f2) : Except String (Json × List String)) =
        .ok (td', fx) := h
    cases hl : legacyLoop rest td1 now with
    | error e =>
      simp only [hl] at h2
      exact Except.noConfusion h2
    | ok q =>
      simp only [hl] at h2
      have hpair := Except.ok.inj h2
      simp only [Prod.mk.injEq] at hpair
      obtain ⟨hA, hB⟩ := hpair
      refine ⟨td1, f1, q.2, rfl, ?_, hB.symm⟩
      rw [hl, ← hA]

theorem legacyLoop_noop :
    ∀ (entries : List (String × String × List (String × Json))) (td : Json)
      (now : String),
      (∀ e ∈ entries, truthyO (jsGet td e.1) = false) →
      legacyLoop entries td now = .ok (td, [])
  | [], td, now, _ => rfl
  | (ot, tgt, sp) :: rest, td, now, h => by
    have hstep := legacyStep_noop td ot tgt sp now
      (h (ot, tgt, sp) (List.mem_cons_self _ _))
    have hrest := legacyLoop_noop rest td now
      (fun e he => h e (List.mem_cons_of_mem _ he))
    rw [legacyLoop_cons, hstep]
    simp only [Except.bind, bind]
    rw [hrest]
    rfl

theorem legacyLoop_truthy :
    ∀ (entries : List (String × String × List (String × Json))) (td : Json)
      (now : String) (td' : Json) (fx : List String) (k : String),
      (∀ e ∈ entries, e.1 ≠ k) → truthyO (jsGet td k) = true →
      legacyLoop entries td now = .ok (td', fx) →
      truthyO (jsGet td' k) = true
  | [], td, now, td', fx, k, _, hk, h => by
    have hpair := Except.ok.inj h
    injection hpair with h1 h2
    subst h1
    exact hk
  | e :: rest, td, now, td', fx, k, hne, hk, h => by
    obtain ⟨td1, f1, f2, hs, hl, rfl⟩ := legacyLoop_cons_ok e rest td now td' fx h
    have h1 := legacyStep_truthy td e.1 e.2.1 e.2.2 now td1 f1 k
      (fun hc => hne e (List.mem_cons_self _ _) hc.symm) hk hs
    exact legacyLoop_truthy rest td1 now td' f2 k
      (fun x hx => hne x (List.mem_cons_of_mem _ hx)) h1 hl

theorem legacyLoop_keys :
    ∀ (entries : List (String × String × List (String × Json))) (td : Json)
      (now : String) (td' : Json) (fx : List String) (k : String),
      legacyLoop entries td now = .ok (td', fx) → k ∈ jsKeys td' →
      k ∈ jsKeys td ∨ k ∈ entries.map (fun e => e.2.1)
  | [], td, now, td', fx, k, h, hmem => by
    have hpair := Except.ok.inj h
    injection hpair with h1 h2
    subst h1
    exact Or.inl hmem
  | e :: rest, td, now, td', fx, k, h, hmem => by
    obtain ⟨td1, f1, f2, hs, hl, rfl⟩ := legacyLoop_cons_ok e rest td now td' fx h
    rcases legacyLoop_keys rest td1 now td' f2 k hl hmem with h1 | h1
    · rcases legacyStep_keys td e.1 e.2.1 e.2.2 now td1 f1 k h1 hs with h2 | h2
      · exact Or.inl h2
      · exact Or.inr (by simp [h2])
    · exact Or.inr (by simp [h1])

theorem legacyLoop_isObj :
    ∀ (entries : List (String × String × List (String × Json))) (td : Json)
      (now : String) (td' : Json) (fx : List String),
      legacyLoop entries td now = .ok (td', fx) →
      td'.isObjB = td.isObjB
  | [], td, now, td', fx, h => by
    have hpair := Except.ok.inj h
    injection hpair with h1 h2
    subst h1
    rfl
  | e :: rest, td, now, td', fx, h => by
    obtain ⟨td1, f1, f2, hs, hl, rfl⟩ := legacyLoop_cons_ok e rest td now td' fx h
    rw [legacyLoop_isObj rest td1 now td' f2 hl,
      legacyStep_isObj td e.1 e.2.1 e.2.2 now td1 f1 hs]

theorem legacy_falsy_of_all_netgt :
    ∀ (entries : List (String × String × List (String × Json))) (td : Json)
      (now : String) (td' : Json) (fx : List String) (T : String),
      legacyLoop entries td now = .ok (td', fx) →
      truthyO (jsGet td T) = false → (∀ e ∈ entries, e.2.1 ≠ T) →
      truthyO (jsGet td' T) = false
  | [], td, now, td', fx, T, h, hfalsy, _ => by
    have hpair := Except.ok.inj h
    injection hpair with h1 h2
    subst h1
    exact hfalsy
  | e :: rest, td, now, td', fx, T, h, hfalsy, hne => by
    obtain ⟨td1, f1, f2, hs, hl, rfl⟩ := legacyLoop_cons_ok e rest td now td' fx h
    have h1 : truthyO (jsGet td1 T) = false := by
      by_cases hT : e.1 = T
      · subst hT
        exact legacyStep_self td e.1 e.2.1 e.2.2 now td1 f1 hs
      · rw [legacyStep_other td e.1 e.2.1 e.2.2 now td1 f1 T
          (fun hc => hT hc.symm) (hne e (List.mem_cons_self _ _)).symm hs]
        exact hfalsy
    exact legacy_falsy_of_all_netgt rest td1 now td' f2 T hl h1
      (fun x hx => hne x (List.mem_cons_of_mem _ hx))


theorem legacy_inv :
    ∀ (entries : List (String × String × List (String × Json))) (td : Json)
      (now : String) (td' : Json) (fx : List String) (T : String),
      legacyLoop entries td now = .ok (td', fx) →
      T ∈ entries.map Prod.fst → goodT entries T = true →
      truthyO (jsGet td' T) = false
  | [], td, now, td', fx, T, h, hmem, _ => absurd hmem (by simp)
  | e :: rest, td, now, td', fx, T, h, hmem, hgood => by
    obtain ⟨td1, f1, f2, hs, hl, rfl⟩ := legacyLoop_cons_ok e rest td now td' fx h
    obtain ⟨f, tgt, sp⟩ := e
    rw [goodT, Bool.and_eq_true] at hgood
    by_cases hT : f = T
    · subst hT
      have hfalsy := legacyStep_self td f tgt sp now td1 f1 hs
      have hall : ∀ x ∈ rest, x.2.1 ≠ f := by
        have := hgood.1
        rw [if_pos rfl, List.all_eq_true] at this
        intro x hx
        simpa using this x hx
      exact legacy_falsy_of_all_netgt rest td1 now td' f2 f hl hfalsy hall
    · have hmem' : T ∈ rest.map Prod.fst := by
        simp only [List.map_cons, List.mem_cons] at hmem
        rcases hmem with hmem | hmem
        · exact absurd hmem.symm hT
        · exact hmem
      exact legacy_inv rest td1 now td' f2 T hl hmem' hgood.2

/-- Evaluating `transformAfterClone` on an already-canonical object: truthy
`projects`, a no-op legacy loop, and a stable second pass give the input back
with no fixes. -/
theorem transformAfterClone_eval (rms : List (String × Json)) (now : String)
    (hproj : truthyO (jsGet (Json.obj rms) "projects") = true)
    (hleg : legacyLoop entityTypesMap (Json.obj rms) now = .ok (.obj rms, []))
    (hsp : secondPassFields rms = (rms, [])) :
    transformAfterClone (.obj rms) now = .ok (.obj rms, []) := by
  unfold transformAfterClone
  rw [if_neg (by simp [hproj])]
  show (do
    let (td2, f2) ← legacyLoop entityTypesMap (Json.obj rms) now
    let (td3, f3) :=
      match td2 with
      | .obj ms => (Json.obj (secondPassFields ms).1, (secondPassFields ms).2)
      | x => (x, ([] : List String))
    Except.ok (td3, [] ++ f2 ++ f3)) = Except.ok (Json.obj rms, [])
  rw [hleg]
  show Except.ok
    (Json.obj (secondPassFields rms).1, [] ++ [] ++ (secondPassFields rms).2) =
    Except.ok (Json.obj rms, [])
  rw [hsp]
  rfl

/-- Destructuring a successful `transformAfterClone` on an object root. -/
theorem transformAfterClone_ok_shape (ms : List (String × Json)) (now : String)
    (r : Json) (fixes : List String)
    (h : transformAfterClone (.obj ms) now = .ok (r, fixes)) :
    ∃ td1 td2 f2 ms2,
      (td1 = jsSet (.obj ms) "projects" (.arr []) ∨ td1 = .obj ms) ∧
      truthyO (jsGet td1 "projects") = true ∧
      legacyLoop entityTypesMap td1 now = .ok (td2, f2) ∧
      td2 = .obj ms2 ∧
      r = .obj (secondPassFields ms2).1 := by
  unfold transformAfterClone at h
  by_cases hproj : truthyO (jsGet (Json.obj ms) "projects") = true
  · rw [if_neg (by simp [hproj])] at h
    have h2 : (do
        let (td2, f2) ← legacyLoop entityTypesMap (Json.obj ms) now
        let (td3, f3) :=
          match td2 with
          | Json.obj m =>
            (Json.obj (secondPassFields m).1, (secondPassFields m).2)
          | x => (x, ([] : List String))
        Except.ok (td3, [] ++ f2 ++ f3)) =
        (Except.ok (r, fixes) : Except String (Json × List String)) := h
    cases hleg : legacyLoop entityTypesMap (Json.obj ms) now with
    | error e =>
      simp only [hleg] at h2
      exact Except.noConfusion h2
    | ok p =>
      have hobj : p.1.isObjB = true := by
        rw [legacyLoop_isObj _ _ _ _ _ hleg]
        rfl
      simp only [hleg] at h2
      obtain ⟨td2, f2⟩ := p
      cases td2 with
      | obj ms2 =>
        have h3 : Except.ok (Json.obj (secondPassFields ms2).1,
            [] ++ f2 ++ (secondPassFields ms2).2) =
            (Except.ok (r, fixes) : Except String (Json × List String)) := h2
        have hr := congrArg Prod.fst (Except.ok.inj h3)
        exact ⟨.obj ms, .obj ms2, f2, ms2, Or.inr rfl, hproj, hleg, rfl, hr.symm⟩
      | null => simp [Json.isObjB] at hobj
      | bool b => simp [Json.isObjB] at hobj
      | num n => simp [Json.isObjB] at hobj
      | str s => simp [Json.isObjB] at hobj
      | arr es => simp [Json.isObjB] at hobj
  · rw [if_pos (by simp [Bool.not_eq_true] at hproj; simp [hproj])] at h
    have h2 : (do
        let (td2, f2) ← legacyLoop entityTypesMap
          (jsSet (.obj ms) "projects" (.arr [])) now
        let (td3, f3) :=
          match td2 with
          | Json.obj m =>
            (Json.obj (secondPassFields m).1, (secondPassFields m).2)
          | x => (x, ([] : List String))
        Except.ok (td3,
          ["Added missing required projects array to root level"] ++ f2 ++ f3)) =
        (Except.ok (r, fixes) : Except String (Json × List String)) := h
    cases hleg : legacyLoop entityTypesMap
        (jsSet (.obj ms) "projects" (.arr [])) now with
    | error e =>
      simp only [hleg] at h2
      exact Except.noConfusion h2
    | ok p =>
      have hobj : p.1.isObjB = true := by
        rw [legacyLoop_isObj _ _ _ _ _ hleg, isObjB_jsSet]
        rfl
      simp only [hleg] at h2
      obtain ⟨td2, f2⟩ := p
      cases td2 with
      | obj ms2 =>
        have h3 : Except.ok (Json.obj (secondPassFields ms2).1,
            ["Added missing required projects array to root level"] ++ f2 ++
              (secondPassFields ms2).2) =
            (Except.ok (r, fixes) : Except String (Json × List String)) := h2
        have hr := congrArg Prod.fst (Except.ok.inj h3)
        refine ⟨jsSet (.obj ms) "projects" (.arr []), .obj ms2, f2, ms2,
          Or.inl rfl, ?_, hleg, rfl, hr.symm⟩
        rw [jsGet_jsSet_self]
        rfl
      | null => simp [Json.isObjB] at hobj
      | bool b => simp [Json.isObjB] at hobj
      | num n => simp [Json.isObjB] at hobj
      | str s => simp [Json.isObjB] at hobj
      | arr es => simp [Json.isObjB] at hobj

theorem transformToNepaFormat_idem_main
    (ms : List (String × Json)) (now now2 : String) (r : Json)
    (fixes : List String)
    (hkeys : ∀ k ∈ ms.map Prod.fst, strDropLast k ≠ "gis_data")
    (hrun : transformToNepaFormat (.obj ms) now = .ok (r, fixes)) :
    transformToNepaFormat r now2 = .ok (r, []) := by
  unfold transformToNepaFormat at hrun
  rw [deepClone_eq] at hrun
  obtain ⟨td1, td2, f2, ms2, htd1, hproj1, hleg, rfl, rfl⟩ :=
    transformAfterClone_ok_shape ms now r fixes hrun
  have htd1keys : ∀ k ∈ jsKeys td1, strDropLast k ≠ "gis_data" := by
    intro k hk
    rcases htd1 with rfl | rfl
    · rcases jsKeys_jsSet _ _ _ _ hk with h1 | rfl
      · exact hkeys k h1
      · decide
    · exact hkeys k hk
  have hms2keys : ∀ k ∈ ms2.map Prod.fst, strDropLast k ≠ "gis_data" := by
    intro k hk
    rcases legacyLoop_keys entityTypesMap td1 now (.obj ms2) f2 k hleg hk with
      h1 | h1
    · exact htd1keys k h1
    · have hc : ∀ k' ∈ entityTypesMap.map (fun e => e.2.1),
          strDropLast k' ≠ "gis_data" := by decide
      exact hc k h1
  have hproj2 : truthyO (jsGet (.obj ms2) "projects") = true := by
    refine legacyLoop_truthy entityTypesMap td1 now (.obj ms2) f2 "projects"
      ?_ hproj1 hleg
    have hc : ∀ e ∈ entityTypesMap, e.1 ≠ "projects" := by decide
    exact hc
  have htables : ∀ T ∈ entityTypesMap.map Prod.fst,
      truthyO (jsGet (.obj ms2) T) = false := by
    intro T hT
    refine legacy_inv entityTypesMap td1 now (.obj ms2) f2 T hleg hT ?_
    have hc : ∀ T' ∈ entityTypesMap.map Prod.fst,
        goodT entityTypesMap T' = true := by decide
    exact hc T hT
  have hprojr : truthyO (jsGet (.obj (secondPassFields ms2).1) "projects")
      = true := by
    show truthyO (assocFind (secondPassFields ms2).1 "projects") = true
    rw [assocFind_secondPassFields]
    cases hx : assocFind ms2 "projects" with
    | none =>
      rw [show jsGet (Json.obj ms2) "projects" = assocFind ms2 "projects"
        from rfl, hx] at hproj2
      exact absurd hproj2 (by simp [truthyO])
    | some v =>
      rw [show jsGet (Json.obj ms2) "projects" = assocFind ms2 "projects"
        from rfl, hx] at hproj2
      simp only [Option.map_some', truthyO, truthy_spEntryVal]
      exact hproj2
  have htablesr : ∀ e ∈ entityTypesMap,
      truthyO (jsGet (.obj (secondPassFields ms2).1) e.1) = false := by
    intro e he
    have hT := htables e.1 (List.mem_map_of_mem Prod.fst he)
    show truthyO (assocFind (secondPassFields ms2).1 e.1) = false
    rw [assocFind_secondPassFields]
    cases hx : assocFind ms2 e.1 with
    | none => simp [truthyO]
    | some v =>
      rw [show jsGet (Json.obj ms2) e.1 = assocFind ms2 e.1 from rfl, hx] at hT
      simp only [Option.map_some', truthyO, truthy_spEntryVal]
      exact hT
  have hleg2 := legacyLoop_noop entityTypesMap (.obj (secondPassFields ms2).1)
    now2 htablesr
  have hsp2 := secondPassFields_stable ms2 hms2keys
  unfold transformToNepaFormat
  rw [deepClone_eq]
  exact transformAfterClone_eval (secondPassFields ms2).1 now2 hprojr hleg2 hsp2


theorem vtCoverageLoop_le (props : List String) (tableName : String)
    (dbKeys : List String) (cols : List Column) (required : List String) :
    (vtCoverageLoop props tableName dbKeys cols required).1 ≤ props.length := by
  induction props with
  | nil => exact Nat.le_refl 0
  | cons p rest ih =>
    rw [vtCoverageLoop]
    rcases hv : vtCoverageLoop rest tableName dbKeys cols required with
      ⟨fr, er, wr, mr⟩
    rw [hv] at ih
    dsimp only at ih ⊢
    split
    · exact Nat.succ_le_succ ih
    · split
      · split
        · exact Nat.succ_le_succ ih
        · exact Nat.le_succ_of_le ih
      · exact Nat.le_succ_of_le ih

/-! ## The claims -/

/-- C1, counterexample: `mapEngagementType` does not pass the unknown
engagement type `webinar` through; it replaces it with the default
`public meeting`. -/
theorem claim1_counterexample :
    mapEngagementType (.str "webinar") = .str "public meeting" ∧
      mapEngagementType (.str "webinar") ≠ .str "webinar" := by
  refine ⟨rfl, ?_⟩
  intro h
  rw [show mapEngagementType (.str "webinar") = .str "public meeting" from rfl]
    at h
  injection h with h1
  exact absurd h1 (by decide)

/-- C1 (amended): for every input string that is not a key of the
engagement-type translation table, `mapEngagementType` returns the default
`'public meeting'` — it does not pass the input through; the pass-through
behaviour belongs to `mapDocumentType`, which does return an unknown document
type unchanged. -/
theorem claim1_amended (s d : String)
    (hs : s ∉ engagementTypeMap.map Prod.fst)
    (hd : d ∉ documentTypeMap.map Prod.fst) :
    mapEngagementType (.str s) = .str "public meeting" ∧
      mapDocumentType (.str d) = .str d := by
  constructor
  · unfold mapEngagementType
    rw [show jsToStr (.str s) = s from rfl, assocFind_eq_none _ _ hs]
  · unfold mapDocumentType
    rw [show jsToStr (.str d) = d from rfl, assocFind_eq_none _ _ hd]

/-- C1, witness: the amended statement at `webinar` and `memo`. -/
theorem claim1_witness :
    mapEngagementType (.str "webinar") = .str "public meeting" ∧
      mapDocumentType (.str "memo") = .str "memo" :=
  claim1_amended "webinar" "memo" (by decide) (by decide)

/-- C2, counterexample: the mapping rules do resolve the `public_acess` typo
to `public_access` (deliberately — the source comments it `Handle typo`), and
on a `comment` table whose schema defines `public_access` the analyzer
reports the column as covered with no unmatched-source-field warning. -/
theorem claim2_counterexample :
    mapDatabaseFieldToSchema "public_acess" "comment" = "public_access" ∧
      (validateTable "comment" [⟨"public_acess"⟩]
        [("public_comment", .obj [("properties",
          .obj [("public_access", .obj [("type", .str "boolean")])])])]).warnings
        = [] ∧
      (validateTable "comment" [⟨"public_acess"⟩]
        [("public_comment", .obj [("properties",
          .obj [("public_access", .obj [("type", .str "boolean")])])])]).found
        = 1 :=
  ⟨rfl, rfl, rfl⟩

/-- C2 (amended): the `comment`-table rename map, the global fallback map,
and `validateTable`'s `specificMappings` each resolve the `public_acess` typo
to the canonical `public_access`, so the coverage analyzer counts the column
as matching `public_access` (1/1 coverage, no warnings, no errors) rather
than reporting it as an unmatched source field. -/
theorem claim2_amended :
    mapDatabaseFieldToSchema "public_acess" "comment" = "public_access" ∧
      mapDatabaseFieldToSchema "public_acess" "some_unmapped_table" =
        "public_access" ∧
      assocFind ((assocFind vtSpecificMappings "comment").getD [])
        "public_acess" = some "public_access" ∧
      (validateTable "comment" [⟨"public_acess"⟩]
        [("public_comment", .obj [("properties",
          .obj [("public_access", .obj [("type", .str "boolean")])])])]) =
        { valid := true, errors := [], warnings := [], found := 1, total := 1,
          missingRequired := [] } :=
  ⟨rfl, rfl, rfl, rfl⟩

/-- C3: evaluating the transformer at the failing input.  For the table
`process_instance` (target array `processes`, canonical identifier
`process_id`) and the empty source record, the transformed record contains no
`process_id` at all — `transformEntity` computes the field to synthesize as
`mapEntityId(targetType.slice(0, -1))`, i.e. `mapEntityId "processe"`,
which falls back to the nonexistent `processe_id`, so the claimed identifier
invariant fails. -/
theorem claim3_failing_input_eval :
    transformToNepaFormat (.obj [("process_instance", .arr [.obj []])]) "0" =
      .ok (.obj [("projects", .arr []), ("processes", .arr [.obj []])],
        ["Added missing required projects array to root level",
         "Transformed process_instance data to NEPA processes format"]) ∧
      jsGet (.obj []) "process_id" = none ∧
      mapEntityId (strDropLast "processes") = "processe_id" :=
  ⟨rfl, rfl, rfl⟩

/-- C4: evaluating the transformer at the failing input.  A hand-authored
canonical `processes` array element with `process_id: null` keeps the `null`:
the second pass looks up `simplifiedSchemas[nepaKey.slice(0, -1)]`, i.e.
`simplifiedSchemas["processe"]`, finds nothing, and so applies no
null-to-default normalization, although the `process` entity schema types
`process_id` as `string`. -/
theorem claim4_failing_input_eval :
    transformToNepaFormat
        (.obj [("processes", .arr [.obj [("process_id", .null)]])]) "0" =
      .ok (.obj [("processes", .arr [.obj [("process_id", .null)]]),
                 ("projects", .arr [])],
        ["Added missing required projects array to root level"]) ∧
      assocFind schemaProcess "process_id" = some (.str "string") ∧
      assocFind simplifiedSchemas (strDropLast "processes") = none :=
  ⟨rfl, rfl, rfl⟩

/-- C5: for every table, both coverage analyzers report
`0 ≤ found ≤ total`, and `total` is the number of non-ignored canonical
properties of the target entity (zero when no schema definition exists). -/
theorem claim5_coverage_bound (tableName : String) (cols : List Column)
    (defs : List (String × Json)) :
    0 ≤ (validateTable tableName cols defs).found ∧
      (validateTable tableName cols defs).found ≤
        (validateTable tableName cols defs).total ∧
      (validateTable tableName cols defs).total =
        nonIgnoredPropertyCount tableName defs ∧
      (validateTableAgainstSchema tableName cols defs).found ≤
        (validateTableAgainstSchema tableName cols defs).total ∧
      (validateTableAgainstSchema tableName cols defs).total =
        nonIgnoredPropertyCount tableName defs := by
  refine ⟨Nat.zero_le _, ?_, ?_, ?_, ?_⟩
  · unfold validateTable
    dsimp only
    cases hsd : assocFind defs (getSchemaMapping tableName).schemaName with
    | none => exact Nat.le_refl 0
    | some sd =>
      dsimp only
      exact vtCoverageLoop_le _ _ _ _ _
  · unfold validateTable nonIgnoredPropertyCount
    dsimp only
    cases hsd : assocFind defs (getSchemaMapping tableName).schemaName with
    | none => rfl
    | some sd => rfl
  · unfold validateTableAgainstSchema
    dsimp only
    cases hsd : assocFind defs (getSchemaMapping tableName).schemaName with
    | none => exact Nat.le_refl 0
    | some sd =>
      dsimp only
      exact Nat.min_le_right _ _
  · unfold validateTableAgainstSchema nonIgnoredPropertyCount
    dsimp only
    cases hsd : assocFind defs (getSchemaMapping tableName).schemaName with
    | none => rfl
    | some sd => rfl

/-- C6, counterexample: for the empty string (not a key of the status table),
`mapStatus` does not return the lower-cased copy `""`; the falsy `""` falls
through to the final `'underway'` default. -/
theorem claim6_counterexample :
    mapStatus (.str "") = .ok (.str "underway") ∧ ("underway" : String) ≠ "" :=
  ⟨rfl, by decide⟩

/-- C6 (amended): for every non-empty input string that is not a key of the
status translation table, `mapStatus` returns the lower-cased copy of the
input; the empty string instead falls through to `'underway'`, because its
lower-cased copy is falsy. -/
theorem claim6_amended (s : String) (hs : s ∉ statusMap.map Prod.fst)
    (hne : s ≠ "") : mapStatus (.str s) = .ok (.str (jsToLower s)) := by
  unfold mapStatus
  rw [show jsToStr (.str s) = s from rfl, assocFind_eq_none _ _ hs]
  dsimp only
  rw [if_neg (jsToLower_ne_empty s hne)]

/-- C6, witness: the amended statement at `Unknown Value`. -/
theorem claim6_witness :
    mapStatus (.str "Unknown Value") = .ok (.str (jsToLower "Unknown Value")) :=
  claim6_amended "Unknown Value" (by decide) (by decide)

/-- C7: `transformToNepaFormat` never mutates its input: the caller's
document after the call is the original (the body's only access to it is the
initial deep clone), and — since the clone is structurally equal to the
input — the returned canonical document is a function of the input value
alone. -/
theorem claim7_no_mutation (d : Json) (now : String) :
    transformToNepaFormatCall d now = (d, transformAfterClone d now) := by
  unfold transformToNepaFormatCall transformToNepaFormat
  rw [deepClone_eq]

/-- C8, counterexample: idempotence fails on a document with a `gis_datas`
top-level key.  `gis_datas` singularizes to `gis_data`, so the second pass
runs `transformProperties` with the `gis_data` `container_inventory`
heuristic armed: the first run collapses `[[]]` to `[]` (still an array), and
the second run fires the heuristic again, changing the data and logging a fix
where the claim requires the identical document and an empty fix list. -/
theorem claim8_counterexample :
    transformToNepaFormat
        (.obj [("gis_datas",
          .arr [.obj [("container_inventory", .arr [.arr []])]])]) "0" =
      .ok (.obj [("gis_datas",
          .arr [.obj [("container_inventory", .arr [])]]),
          ("projects", .arr [])],
        ["Added missing required projects array to root level",
         "Fixed container_inventory structure to object for gis_data"]) ∧
      transformToNepaFormat
        (.obj [("gis_datas",
          .arr [.obj [("container_inventory", .arr [])]]),
          ("projects", .arr [])]) "0" =
      .ok (.obj [("gis_datas",
          .arr [.obj [("container_inventory", .obj [])]]),
          ("projects", .arr [])],
        ["Set empty container_inventory to object for gis_data"]) ∧
      ("Set empty container_inventory to object for gis_data" ::
        ([] : List String)) ≠ [] :=
  ⟨rfl, rfl, by simp⟩

/-- C8 (amended): the transformation is idempotent for every object document
none of whose top-level keys yields `gis_data` when its final character is
dropped: if `transformToNepaFormat` maps the document to `(r, fixes)`, then
running it on `r` (at any later timestamp) returns `r` again with an empty
fix list.  (For a key such as `gis_datas` the `container_inventory`
collapsing heuristic can re-fire on the second run, see the
counterexample.) -/
theorem claim8_amended_idempotent
    (ms : List (String × Json)) (now now2 : String) (r : Json)
    (fixes : List String)
    (hkeys : ∀ k ∈ ms.map Prod.fst, strDropLast k ≠ "gis_data")
    (hrun : transformToNepaFormat (.obj ms) now = .ok (r, fixes)) :
    transformToNepaFormat r now2 = .ok (r, []) :=
  transformToNepaFormat_idem_main ms now now2 r fixes hkeys hrun

/-- C8, witness: the amended statement at the empty document, whose first run
synthesizes the `projects` array and whose second run is a no-op. -/
theorem claim8_witness :
    transformToNepaFormat (.obj [("projects", .arr [])]) "1" =
      .ok (.obj [("projects", .arr [])], []) :=
  claim8_amended_idempotent [] "0" "1" (.obj [("projects", .arr [])])
    ["Added missing required projects array to root level"] (by simp) rfl

/-- C9: `getSchemaMapping` is total: every table name outside
`TABLE_TO_SCHEMA_MAP` receives the fallback mapping
`{schemaName: t, idField: t ++ "_id"}`, and `mapEntityId` therefore yields
`t ++ "_id"` for it. -/
theorem claim9_fallback (t : String)
    (h : t ∉ TABLE_TO_SCHEMA_MAP.map Prod.fst) :
    getSchemaMapping t = ⟨t, t ++ "_id"⟩ ∧ mapEntityId t = t ++ "_id" := by
  have hg : getSchemaMapping t = ⟨t, t ++ "_id"⟩ := by
    unfold getSchemaMapping
    rw [assocFind_eq_none _ _ h]
  exact ⟨hg, by rw [mapEntityId, hg]⟩

/-- C9, witness: the fallback at the unmapped table name `workflow`. -/
theorem claim9_witness :
    getSchemaMapping "workflow" = ⟨"workflow", "workflow_id"⟩ ∧
      mapEntityId "workflow" = "workflow_id" :=
  claim9_fallback "workflow" (by decide)

/-- C10: `transformProperties` never fails on structurally non-object input:
`null`, numbers, strings and booleans are returned unchanged with no fixes
(the `typeof entity !== 'object' || entity === null` guard). -/
theorem claim10_passthrough (t : String) (sp : List (String × Json))
    (n : Int) (s : String) (b : Bool) :
    transformProperties .null t sp = (.null, []) ∧
      transformProperties (.num n) t sp = (.num n, []) ∧
      transformProperties (.str s) t sp = (.str s, []) ∧
      transformProperties (.bool b) t sp = (.bool b, []) :=
  ⟨rfl, rfl, rfl, rfl⟩
